import Mathlib

/-!
Verification of the searcher-agent task-processing core.

This file gives a shallow embedding, in Lean, of the parts of the
repository that the specification claims talk about:

* the Python string helpers used by the pipeline (`str.strip`,
  `str.splitlines`, slicing, substring membership, the `\w+` and
  `[a-zA-Z0-9-]+` token regexes, restricted to their ASCII meaning,
  which covers all inputs appearing in the claims);
* the research pipeline: candidate merging (`agent/pipeline/search.py`),
  BM25 ranking (`agent/pipeline/ranking.py`), the heuristic relevance
  fallback (`agent/pipeline/analyze.py`) and the decision stage
  (`agent/pipeline/decision.py`);
* the store operations: cycle completion
  (`shared/database/operations/integration.py`) and rate limiting
  (`shared/database/operations/rate_limit.py`).

Numeric conventions of the embedding: Python floats are modelled as
exact rationals (the claims under scrutiny are about the arithmetic
formulas, not about rounding); `datetime` values are modelled as POSIX
timestamps, seconds in `ℤ` for the store and `ℚ` for the
`updated.timestamp()` ranking key; `math.log` is kept abstract as a
parameter `lg : ℚ → ℚ` of the ranking functions, since none of the
claims depends on its concrete values, only on the shape of the BM25
formula it is plugged into.
-/

set_option maxHeartbeats 1000000
set_option maxRecDepth 8192

namespace SearcherAgent

/-! ## Python string primitives -/

/-- The characters stripped by Python `str.strip()` with no argument
(the ASCII whitespace set; all strings manipulated here are built from
the source literals, which use only these). -/
def isPySpace (c : Char) : Bool :=
  c == ' ' || c == '\t' || c == '\n' || c == '\r' || c == '\x0b' || c == '\x0c'

/-- `str.strip()` on a character list. -/
def pyStripList (l : List Char) : List Char :=
  ((l.dropWhile isPySpace).reverse.dropWhile isPySpace).reverse

/-- `str.rstrip()` on a character list. -/
def pyRstripList (l : List Char) : List Char :=
  (l.reverse.dropWhile isPySpace).reverse

/-- `str.strip()`. -/
def pyStrip (s : String) : String := String.mk (pyStripList s.data)

/-- `str.rstrip()`. -/
def pyRstrip (s : String) : String := String.mk (pyRstripList s.data)

/-- Python slicing `s[:n]` for `n ≥ 0`. -/
def pyTake (s : String) (n : Nat) : String := String.mk (s.data.take n)

/-- Python `str.lower()` (ASCII fragment). -/
def pyLower (s : String) : String := String.mk (s.data.map Char.toLower)

/-- Does `pat` occur at the very beginning of `hay`? (helper for
substring and startswith tests). -/
def isHeadOf : List Char → List Char → Bool
  | [], _ => true
  | _ :: _, [] => false
  | p :: ps, h :: hs => p == h && isHeadOf ps hs

/-- Python substring membership `pat in hay` on character lists. -/
def hasSubList (hay pat : List Char) : Bool :=
  match hay with
  | [] => pat.isEmpty
  | _ :: hs => isHeadOf pat hay || hasSubList hs pat

/-- Python `pat in hay` on strings. -/
def pyContains (hay pat : String) : Bool := hasSubList hay.data pat.data

/-- Python `s.startswith(pre)`. -/
def pyStartsWith (s pre : String) : Bool := isHeadOf pre.data s.data

/-- Python `s.endswith(suf)`. -/
def pyEndsWith (s suf : String) : Bool := isHeadOf suf.data.reverse s.data.reverse

/-- Split a character list at every occurrence of `sep`; the list of
pieces is never empty and the pieces contain no `sep`. -/
def splitNL : List Char → List (List Char)
  | [] => [[]]
  | c :: cs =>
    if c == '\n' then [] :: splitNL cs
    else
      match splitNL cs with
      | [] => [[c]]
      | h :: t => (c :: h) :: t

/-- Python `str.splitlines()` for strings whose only line separator is
`'\n'` (the texts built by the decision stage contain no other): all
pieces between newlines, except that a trailing empty piece produced by
a final newline is dropped, and the empty string has no lines. -/
def pySplitlinesL (s : List Char) : List (List Char) :=
  if s.isEmpty then []
  else
    let ps := splitNL s
    if ps.getLastD [] = [] then ps.dropLast else ps

/-- `str.splitlines()` on strings. -/
def pySplitlines (s : String) : List String :=
  (pySplitlinesL s.data).map String.mk

/-! ## Regex token extraction

`re.findall(p+, s)` for a character class `p` returns the maximal runs
of characters satisfying `p`, in order. -/

/-- Accumulating runs extractor; `acc` holds the current run reversed. -/
def runsAux (p : Char → Bool) : List Char → List Char → List (List Char)
  | [], acc => if acc.isEmpty then [] else [acc.reverse]
  | c :: cs, acc =>
    if p c then runsAux p cs (c :: acc)
    else if acc.isEmpty then runsAux p cs []
    else acc.reverse :: runsAux p cs []

/-- Maximal runs of characters satisfying `p` in `s`. -/
def findallRuns (p : Char → Bool) (s : String) : List String :=
  (runsAux p s.data []).map String.mk

/-- The ASCII fragment of the regex class `\w`: letters, digits and
underscore (all strings in the claims are ASCII). -/
def isWordChar (c : Char) : Bool := c.isAlphanum || c == '_'

/-! ## Stable sort

`list.sort(key=…, reverse=True)` in Python is a stable sort: elements
whose keys compare equal keep their input order.  A stable sort is
uniquely determined by its (total, transitive) boolean comparison, so
the insertion sort below computes exactly the list Python computes when
`le a b` means "a may come no later than b". -/

/-- Insert `x` in front of the first element it may precede. -/
def pyInsert (le : α → α → Bool) (x : α) : List α → List α
  | [] => [x]
  | y :: ys => if le x y then x :: y :: ys else y :: pyInsert le x ys

/-- Stable sort by the boolean comparison `le`. -/
def pySort (le : α → α → Bool) : List α → List α
  | [] => []
  | x :: xs => pyInsert le x (pySort le xs)

theorem pyInsert_perm (le : α → α → Bool) (x : α) (l : List α) :
    (pyInsert le x l).Perm (x :: l) := by
  induction l with
  | nil => simp [pyInsert]
  | cons y ys ih =>
    by_cases h : le x y
    · simp [pyInsert, h]
    · have hrw : pyInsert le x (y :: ys) = y :: pyInsert le x ys := by
        simp [pyInsert, h]
      rw [hrw]
      exact (List.Perm.cons y ih).trans (List.Perm.swap x y ys)

theorem pySort_perm (le : α → α → Bool) (l : List α) :
    (pySort le l).Perm l := by
  induction l with
  | nil => simp [pySort]
  | cons x xs ih =>
    exact (pyInsert_perm le x (pySort le xs)).trans (List.Perm.cons x ih)

theorem mem_pyInsert (le : α → α → Bool) (x : α) (l : List α) (a : α) :
    a ∈ pyInsert le x l ↔ a = x ∨ a ∈ l := by
  have h := (pyInsert_perm le x l).mem_iff (a := a)
  simpa using h

theorem pyInsert_pairwise (le : α → α → Bool)
    (total : ∀ a b, le a b = true ∨ le b a = true)
    (trans : ∀ a b c, le a b = true → le b c = true → le a c = true)
    (x : α) (l : List α) (h : l.Pairwise (fun a b => le a b = true)) :
    (pyInsert le x l).Pairwise (fun a b => le a b = true) := by
  induction l with
  | nil => simp [pyInsert]
  | cons y ys ih =>
    rcases h with _ | ⟨hy, hys⟩
    by_cases hxy : le x y
    · have hrw : pyInsert le x (y :: ys) = x :: y :: ys := by simp [pyInsert, hxy]
      rw [hrw]
      refine List.Pairwise.cons ?_ (List.Pairwise.cons hy hys)
      intro b hb
      rcases List.mem_cons.1 hb with hb | hb
      · subst hb; exact hxy
      · exact trans x y b hxy (hy _ hb)
    · have hyx : le y x = true := by
        rcases total x y with h1 | h1
        · exact absurd h1 hxy
        · exact h1
      have hrw : pyInsert le x (y :: ys) = y :: pyInsert le x ys := by
        simp [pyInsert, hxy]
      rw [hrw]
      refine List.Pairwise.cons ?_ (ih hys)
      intro b hb
      rcases (mem_pyInsert le x ys b).1 hb with hb | hb
      · subst hb; exact hyx
      · exact hy _ hb

theorem pySort_pairwise (le : α → α → Bool)
    (total : ∀ a b, le a b = true ∨ le b a = true)
    (trans : ∀ a b c, le a b = true → le b c = true → le a c = true)
    (l : List α) :
    (pySort le l).Pairwise (fun a b => le a b = true) := by
  induction l with
  | nil => simp [pySort]
  | cons x xs ih => exact pyInsert_pairwise le total trans x (pySort le xs) ih

/-! ## Pipeline data model (`agent/pipeline/models.py`) -/

/-- `PaperCandidate`: the source-agnostic retrieved item.  `published`
and `updated` are POSIX timestamps (`datetime.timestamp()` values,
which may be negative for dates before 1970); `bm25_score` defaults to
`0.0`. -/
structure PaperCandidate where
  arxivId : String
  title : String
  summary : String
  categories : List String := []
  published : Option ℚ := none
  updated : Option ℚ := none
  pdfUrl : Option String := none
  absUrl : Option String := none
  journalRef : Option String := none
  doi : Option String := none
  comment : Option String := none
  primaryCategory : Option String := none
  bm25Score : ℚ := 0
deriving DecidableEq, Repr

/-- `PipelineTask` with the defaults from `models.py`. -/
structure PipelineTask where
  query : String
  categories : Option (List String) := none
  maxQueries : Nat := 5
  bm25TopK : Nat := 20
  maxAnalyze : Nat := 10
  minRelevance : ℚ := 50
  queries : Option (List String) := none
deriving DecidableEq, Repr

/-- `AnalysisResult`. -/
structure AnalysisResult where
  candidate : PaperCandidate
  relevance : ℚ
  summary : String
  keyFragments : Option String := none
  contextualReasoning : Option String := none
deriving DecidableEq, Repr

/-- `ScoredAnalysis`. -/
structure ScoredAnalysis where
  result : AnalysisResult
  overallScore : ℚ
  reasoning : Option String := none
deriving DecidableEq, Repr

/-- `DecisionReport`. -/
structure DecisionReport where
  shouldNotify : Bool
  reportText : Option String
deriving DecidableEq, Repr

/-! ## Retrieval merge (`collect_candidates`, `agent/pipeline/search.py`)

`collect_candidates` iterates over the generated queries, fetches one
result page per query from the adapter selected by the query's source
tag (queries with an unknown tag are skipped and contribute no page),
and folds every page through a `seen` set keyed by `arxiv_id`, keeping
only the first candidate with each id.  The embedding takes the list of
fetched pages, in dispatch order, as input — the claims quantify over
exactly those pages — and performs the same first-occurrence fold over
their concatenation. -/

/-- The dedup fold of `collect_candidates`: `seen` is the set of ids
already collected. -/
def dedupFirst (seen : List String) : List PaperCandidate → List PaperCandidate
  | [] => []
  | c :: rest =>
    if c.arxivId ∈ seen then dedupFirst seen rest
    else c :: dedupFirst (c.arxivId :: seen) rest

/-- `collect_candidates` restricted to its merging behaviour: the pages
are the per-query adapter results, in query order. -/
def collect_candidates (pages : List (List PaperCandidate)) : List PaperCandidate :=
  dedupFirst [] pages.flatten

/-! ## BM25 ranking (`agent/pipeline/ranking.py`) -/

/-- `_tokenize`: lowercased maximal `\w+` runs of the text. -/
def tokenize (s : String) : List String :=
  (runsAux isWordChar s.data []).map (fun t => String.mk (t.map Char.toLower))

/-- `_bm25_scores` with `k1 = 1.5`, `b = 0.75`, parameterized by the
logarithm `lg` (the source computes `idf = math.log((N - n + 0.5) /
(n + 0.5) + 1.0)`; `lg` stands for `math.log`).  Terms of the query
that do not occur in a document contribute `0` exactly as the `continue`
in the source; `1e-6` is the literal guard from the source. -/
def bm25_scores (lg : ℚ → ℚ) (queryTokens : List String)
    (documents : List (List String)) : List ℚ :=
  let k1 : ℚ := 3 / 2
  let b : ℚ := 3 / 4
  let N : ℚ := documents.length
  let avgdl : ℚ := ((documents.map List.length).sum : ℕ) / max (documents.length : ℚ) 1
  let idf := fun t : String =>
    let n : ℚ := documents.countP (fun d => decide (t ∈ d))
    lg ((N - n + 1 / 2) / (n + 1 / 2) + 1)
  documents.map (fun doc =>
    let dl : ℚ := doc.length
    (queryTokens.map (fun t =>
      let tf : ℚ := doc.count t
      if tf = 0 then 0
      else idf t * (tf * (k1 + 1) / max (tf + k1 * (1 - b + b * (dl / max avgdl (1 / 1000000)))) (1 / 1000000)))).sum)

/-- The per-candidate sort key of `rank_candidates`: `(bm25_score,
recency)` where recency is `updated.timestamp()` when present and `0.0`
otherwise. -/
def sortKey (c : PaperCandidate) : ℚ × ℚ :=
  (c.bm25Score, match c.updated with | some ts => ts | none => 0)

/-- Lexicographic order on sort keys. -/
def lexKeyLe (x y : ℚ × ℚ) : Bool :=
  decide (x.1 < y.1) || (decide (x.1 = y.1) && decide (x.2 ≤ y.2))

/-- The comparison realized by `candidates_list.sort(key=_key,
reverse=True)`: `a` comes no later than `b` when the key of `a` is
lexicographically at least the key of `b`. -/
def rankLe (a b : PaperCandidate) : Bool := lexKeyLe (sortKey b) (sortKey a)

/-- Tokenized documents of a candidate list: `_tokenize(f"{c.title} \n
{c.summary}")` per candidate. -/
def rankDocs (candidates : List PaperCandidate) : List (List String) :=
  candidates.map (fun c => tokenize (c.title ++ (" \n ") ++ c.summary))

/-- The score-writing loop `for c, s in zip(candidates_list, scores):
c.bm25_score = float(s)`. -/
def applyScores (lg : ℚ → ℚ) (query : String)
    (candidates : List PaperCandidate) : List PaperCandidate :=
  List.zipWith (fun c s => { c with bm25Score := s }) candidates
    (bm25_scores lg (tokenize query) (rankDocs candidates))

/-- The body of `rank_candidates` from the line `candidates_list =
list(candidates)` on: score, stable-sort descending, take `top_k`. -/
def rank_core (lg : ℚ → ℚ) (query : String)
    (candidates : List PaperCandidate) (topK : Nat) : List PaperCandidate :=
  (pySort rankLe (applyScores lg query candidates)).take topK

/-- A Python iterable, modelled by what each successive materialization
`list(it)` returns: for a list both materializations yield the same
elements, for a one-shot generator only the first does. -/
structure PyIterable (α : Type) where
  runs : Nat → List α

/-- A list used as an iterable: every `list(xs)` returns the elements. -/
def listIterable (xs : List α) : PyIterable α := ⟨fun _ => xs⟩

/-- A one-shot iterator (e.g. a generator) over `xs`: the first
`list(it)` consumes it and later ones are empty. -/
def oneShotIterable (xs : List α) : PyIterable α :=
  ⟨fun n => if n = 0 then xs else []⟩

/-- `rank_candidates`: the debug-log statement
`f"Ranking {len(list(candidates))} candidates"` materializes the
iterable once (the result is only logged), then `candidates_list =
list(candidates)` materializes it a second time and the ranking works
on that second list. -/
def rank_candidates (lg : ℚ → ℚ) (query : String)
    (candidates : PyIterable PaperCandidate) (topK : Nat) : List PaperCandidate :=
  let _logged := candidates.runs 0
  rank_core lg query (candidates.runs 1) topK

/-! ## Heuristic relevance (`_heuristic_relevance`, `agent/pipeline/analyze.py`) -/

/-- `toks`: the set of `\w+` tokens of the lowercased string. -/
def wordSet (s : String) : Finset String :=
  ((runsAux isWordChar (s.data.map Char.toLower) []).map String.mk).toFinset

/-- `_heuristic_relevance`: token-overlap relevance mixed with the
clamped BM25 score. -/
def heuristic_relevance (taskQuery : String) (candidate : PaperCandidate) : ℚ :=
  let q := wordSet taskQuery
  let d := wordSet (candidate.title ++ (" ") ++ candidate.summary)
  if q = ∅ then 0
  else
    let overlap : ℚ := ((q ∩ d).card : ℚ) / max (q.card : ℚ) 1
    let score : ℚ := 100 * overlap
    let score2 : ℚ := 7 / 10 * score + 3 / 10 * max 0 (min 100 candidate.bm25Score)
    max 0 (min 100 score2)

/-! ## Decision stage (`agent/pipeline/decision.py`) -/

/-- `score_result`: relevance clamped to `[0, 100]`, plus `5.0`
(clamped at `100`) when the lowercased summary mentions
code/github/dataset/benchmark. -/
def score_result (result : AnalysisResult) : ℚ :=
  let score := max 0 (min 100 result.relevance)
  let text := pyLower result.summary
  if pyContains text ("code") || pyContains text ("github")
      || pyContains text ("dataset") || pyContains text ("benchmark") then
    min 100 (score + 5)
  else score

/-- `ScoredAnalysis(result=r, overall_score=score_result(task, r))`. -/
def scoredOf (r : AnalysisResult) : ScoredAnalysis := ⟨r, score_result r, none⟩

/-- The comparison realized by `items.sort(key=lambda x:
x.overall_score, reverse=True)`. -/
def scoreDescLe (a b : ScoredAnalysis) : Bool :=
  decide (b.overallScore ≤ a.overallScore)

/-- `select_top`: keep the results whose score reaches
`task.min_relevance`, sort by score descending (stable), return at most
the top three (`items[:max(1, min(len(items), 3))]`). -/
def select_top (task : PipelineTask) (analyzed : List AnalysisResult) :
    List ScoredAnalysis :=
  let items := analyzed.filterMap (fun r =>
    if task.minRelevance ≤ score_result r then some (scoredOf r) else none)
  (pySort scoreDescLe items).take (max 1 (min items.length 3))

/-- The regex class `[a-zA-Z0-9\-]+` of `_why_for_task.toks`. -/
def isWhyChar (c : Char) : Bool := c.isAlphanum || c == '-'

/-- `toks` inside `_why_for_task`: `re.findall(r"[a-zA-Z0-9\-]+",
s.lower())` as an ordered token list. -/
def whyToks (s : String) : List String :=
  (runsAux isWhyChar (s.data.map Char.toLower) []).map String.mk

/-- The stop-word set subtracted from the task terms. -/
def whyStopWords : List String :=
  ["the", "and", "or", "of", "to", "for", "a", "in"]

/-- First segment of `s` before the two-character separator `". "`
(`s.split(". ")[0]`). -/
def firstSentenceSeg : List Char → List Char
  | [] => []
  | c :: cs =>
    if isHeadOf ('.' :: ' ' :: []) (c :: cs) then []
    else c :: firstSentenceSeg cs

/-- First-occurrence dedup of a token list (the manual `unique` loop in
`_why_for_task`). -/
def strDedup (seen : List String) : List String → List String
  | [] => []
  | w :: ws =>
    if w ∈ seen then strDedup seen ws
    else w :: strDedup (w :: seen) ws

/-- `_why_for_task` with the default `max_len = 220`. -/
def why_for_task (taskQuery summary : String) : String :=
  let taskTerms : Finset String := (whyToks taskQuery).toFinset \ whyStopWords.toFinset
  let sent : String := String.mk (firstSentenceSeg (pyStripList summary.data))
  let overlaps : List String := (whyToks sent).filter (fun w => decide (w ∈ taskTerms))
  let text : String :=
    if overlaps.isEmpty then
      if sent = ("") then ("directly related methods and findings") else sent
    else
      let unique := strDedup [] overlaps
      ("addresses ") ++ String.intercalate (", ") (unique.take 3)
        ++ (" relevant to your task")
  if 220 < text.length then pyRstrip (pyTake text 217) ++ ("...") else text

/-- Python `"\n".join(pieces)` on character lists. -/
def joinNL : List (List Char) → List Char
  | [] => []
  | [p] => p
  | p :: q :: r => p ++ '\n' :: joinNL (q :: r)

/-- The line-normalization step of `_compact_report_text`:
`"\n".join(ln.strip() for ln in t.splitlines() if ln.strip())`. -/
def normalize_lines (t : String) : String :=
  String.mk (joinNL ((pySplitlinesL t.data).filterMap (fun ln =>
    let s := pyStripList ln
    if s = [] then none else some s)))

/-- The truncation step of `_compact_report_text` with the default
`max_chars = 3000`: `t[:2997].rstrip() + "..."` when over the limit. -/
def truncate_report (t : String) : String :=
  if 3000 < t.length then pyRstrip (pyTake t 2997) ++ ("...") else t

/-- `_compact_report_text` (default `max_chars`): `None` and the empty
string pass through (`if not text: return text`), otherwise normalize
lines then truncate. -/
def compact_report_text : Option String → Option String
  | none => none
  | some t => if t = ("") then some t else some (truncate_report (normalize_lines t))

/-- Python `x or y or ""` over optional strings, with the empty string
falsy (`abs_url or pdf_url or ""`). -/
def pyOrStr (o : Option String) (dflt : String) : String :=
  match o with
  | none => dflt
  | some s => if s = ("") then dflt else s

/-- The raw fallback text assembled by `make_decision_and_report` when
the LLM reporter is unavailable: header line, one block per selected
item (at most three), joined with newlines and stripped. -/
def fallback_text (task : PipelineTask) (selected : List ScoredAnalysis) : String :=
  let lines : List String :=
    (("Findings for your task: ") ++ task.query ++ ("\n")) ::
      (selected.take 3).map (fun s =>
        let title := s.result.candidate.title
        let link := pyOrStr s.result.candidate.absUrl
          (pyOrStr s.result.candidate.pdfUrl (""))
        let why := why_for_task task.query s.result.summary
        ("- ") ++ title ++ ("\n  Why useful for this task: ") ++ why
          ++ ("\n  Link: ") ++ link)
  pyStrip (String.mk (joinNL (lines.map String.data)))

/-- `make_decision_and_report` on the fallback path (reporter agent
unavailable or failed): empty selection means no notification,
otherwise notify with the compacted locally assembled report. -/
def make_decision_fallback (task : PipelineTask)
    (selected : List ScoredAnalysis) : DecisionReport :=
  if selected.isEmpty then ⟨false, none⟩
  else ⟨true, compact_report_text (some (fallback_text task selected))⟩

/-! ## Clean-line predicates

A report text has clean lines (every `splitlines` piece nonempty and
`strip`-invariant) exactly when, character by character, the text does
not begin or end in whitespace and no newline touches an adjacent
whitespace character.  `cleanOk` is that local characterization; the
bridge to `pySplitlines` is proved below. -/

/-- An adjacent pair is bad when a newline touches whitespace (in
particular two newlines in a row). -/
def pairOk (c d : Char) : Bool :=
  !((c == '\n' || d == '\n') && isPySpace c && isPySpace d)

/-- Every adjacent pair of the list is good. -/
def adjOk : List Char → Bool
  | [] => true
  | [_] => true
  | c :: d :: r => pairOk c d && adjOk (d :: r)

/-- The first character, if any, is not whitespace. -/
def headOkD : List Char → Bool
  | [] => true
  | c :: _ => !isPySpace c

/-- The last character, if any, is not whitespace (the default `x` is
not whitespace, so the empty list passes). -/
def lastOkD (l : List Char) : Bool := !isPySpace (l.getLastD 'x')

/-- Local characterization of texts all of whose lines are nonempty and
stripped. -/
def cleanOk (l : List Char) : Bool := headOkD l && lastOkD l && adjOk l

/-! ## Store data model (`shared/database/models.py`, `enums.py`)

`datetime` columns are POSIX timestamps in `ℤ`; every operation takes
the current time `now` as an explicit argument (`datetime.now()`).
The global `task_statistics` singleton updated at the end of
`complete_task_processing` is not modelled: no claim mentions it. -/

/-- `TaskStatus`. -/
inductive TaskStatus where
  | queued | processing | completed | failed | cancelled | paused | active
deriving DecidableEq, Repr

/-- `UserPlan`. -/
inductive UserPlan where
  | free | premium
deriving DecidableEq, Repr

/-- `UserTask` row (the fields read or written by cycle completion). -/
structure UserTask where
  id : Nat
  userId : Nat
  title : String := ""
  description : String
  status : TaskStatus
  cyclesCompleted : Nat
  maxCycles : Nat
  processingStartedAt : Option Int := none
  processingCompletedAt : Option Int := none
  errorMessage : Option String := none
  updatedAt : Int := 0
deriving DecidableEq, Repr

/-- `TaskQueue` row (the fields read or written by cycle completion). -/
structure TaskQueue where
  taskId : Nat
  workerId : Option String := none
  startedAt : Option Int := none
  updatedAt : Int := 0
deriving DecidableEq, Repr

/-- `User` row (the fields read by the cycle-limit notification). -/
structure StoreUser where
  id : Nat
  telegramId : Int
  plan : UserPlan
deriving DecidableEq, Repr

/-- `Finding` row. -/
structure Finding where
  taskId : Nat
  paperId : Nat
deriving DecidableEq, Repr

/-- `PaperAnalysis` row (join key only). -/
structure PaperAnalysis where
  paperId : Nat
deriving DecidableEq, Repr

/-- `ArxivPaper` row (join key only). -/
structure ArxivPaper where
  id : Nat
deriving DecidableEq, Repr

/-- A row of the legacy `task` table used as the outbound delivery
queue (`create_task` in `operations/generic_task.py`); `dataUserId`
is the `user_id` entry of the JSON `data` payload and `result` holds
the message body. -/
structure OutboundMessage where
  taskType : String
  dataUserId : Int
  status : String
  result : Option String
deriving DecidableEq, Repr

/-- The store state touched by cycle completion. -/
structure DB where
  tasks : List UserTask
  queue : List TaskQueue
  users : List StoreUser
  findings : List Finding
  analyses : List PaperAnalysis
  papers : List ArxivPaper
  outbound : List OutboundMessage
deriving DecidableEq, Repr

/-- `session.get(UserTask, task_id)`. -/
def findTask (db : DB) (taskId : Nat) : Option UserTask :=
  db.tasks.find? (fun t => t.id == taskId)

/-- All queue rows for a task. -/
def queueRows (db : DB) (taskId : Nat) : List TaskQueue :=
  db.queue.filter (fun e => e.taskId == taskId)

/-- `scalar_one_or_none()` on the queue query: `none` row, one row, or
an exception (`error`) when several rows match. -/
def queueOne (db : DB) (taskId : Nat) : Except Unit (Option TaskQueue) :=
  match queueRows db taskId with
  | [] => .ok none
  | [e] => .ok (some e)
  | _ :: _ :: _ => .error ()

/-- `session.get(User, user_id)`. -/
def getUser (db : DB) (userId : Nat) : Option StoreUser :=
  db.users.find? (fun u => u.id == userId)

/-- `len(await get_user_task_results(task.id)) > 0`: the
`PaperAnalysis ⋈ Finding ⋈ ArxivPaper` join on `paper_id` restricted to
the task is non-empty. -/
def hasResults (db : DB) (taskId : Nat) : Bool :=
  db.findings.any (fun f => f.taskId == taskId &&
    db.analyses.any (fun a => a.paperId == f.paperId &&
      db.papers.any (fun p => p.id == a.paperId)))

/-- `{description[:100]}{"..." if len(description) > 100 else ""}`. -/
def descSnippet (d : String) : String :=
  pyTake d 100 ++ (if 100 < d.length then ("...") else (""))

/-- `plan_name` in `_notify_cycle_limit_reached`. -/
def planName (u : StoreUser) : String :=
  if u.plan = UserPlan.premium then ("Premium") else ("Free")

/-- The has-results notification body from
`_notify_cycle_limit_reached`, after the final `.strip()` of the
triple-quoted f-string (the interior lines of the literal start at
column zero; the trailing blank after "helpful! " is in the source). -/
def congratsBody (t : UserTask) (plan : String) : String :=
  ("🎉 <b>Task #") ++ toString t.id ++ (" completed!</b>")
    ++ ("\n\n✅ <b>Results found for your query:</b>\n📝 <i>")
    ++ descSnippet t.description ++ ("</i>\n\n")
    ++ ("🔄 <b>Cycles completed:</b> ") ++ toString t.cyclesCompleted
    ++ ("/") ++ toString t.maxCycles ++ (" (Plan: ") ++ plan ++ (")\n\n")
    ++ ("🤖 Hope the results were helpful! \n\n")
    ++ ("💡 <b>Want to continue research?</b>\n")
    ++ ("• Create a new task with a refined query\n")
    ++ ("• Or get a Premium subscription for unlimited search cycles\n\n")
    ++ ("Use /task to create a new task or /status to view results.")

/-- The no-results notification body from
`_notify_cycle_limit_reached`, after the final `.strip()`. -/
def refineBody (t : UserTask) (plan : String) : String :=
  ("🔄 <b>Task #") ++ toString t.id ++ (" completed</b>")
    ++ ("\n\n📝 <i>") ++ descSnippet t.description ++ ("</i>\n\n")
    ++ ("🔄 <b>Cycles completed:</b> ") ++ toString t.cyclesCompleted
    ++ ("/") ++ toString t.maxCycles ++ (" (Plan: ") ++ plan ++ (")\n\n")
    ++ ("❌ <b>Unfortunately, no results found for this query.</b>\n\n")
    ++ ("💡 <b>Recommendations:</b>\n")
    ++ ("• Try reformulating the query more specifically\n")
    ++ ("• Use different keywords\n")
    ++ ("• Or get a Premium subscription for more search cycles\n\n")
    ++ ("Use /task to create a new task with a refined query.")

/-- `_notify_cycle_limit_reached`: look the user up; when absent,
return without sending; otherwise append a `cycle_limit_notification`
outbound row (`create_task(..., status="completed", result=message)`),
choosing the congratulation body when the task has results and the
refinement body otherwise. -/
def notifyCycleLimit (db : DB) (t : UserTask) (hasRes : Bool) : DB :=
  match getUser db t.userId with
  | none => db
  | some u =>
    { db with outbound := db.outbound ++
        [⟨("cycle_limit_notification"), u.telegramId, ("completed"),
          some (if hasRes then congratsBody t (planName u)
                else refineBody t (planName u))⟩] }

/-- `complete_task_processing(task_id, success, error_message)` at time
`now`.  Result `none` models the transaction aborting with an exception
(multiple queue rows make `scalar_one_or_none` raise), leaving the
committed state unchanged; `some (b, db)` models the function returning
`b` with committed state `db`.  `has_results` and the notification are
read and written through sessions of their own and therefore see the
pre-commit row states, which the function does not modify. -/
def complete_task_processing (now : Int) (db : DB) (taskId : Nat)
    (success : Bool) (errorMessage : Option String) : Option (Bool × DB) :=
  match findTask db taskId with
  | none => some (false, db)
  | some task =>
    match queueOne db taskId with
    | .error _ => none
    | .ok _entry =>
      if success then
        let cycles := task.cyclesCompleted + 1
        if task.maxCycles ≤ cycles then
          let task2 : UserTask := { task with
            status := .completed, cyclesCompleted := cycles,
            processingCompletedAt := some now, updatedAt := now }
          let db2 : DB := { db with
            tasks := db.tasks.map (fun t => if t.id == taskId then task2 else t),
            queue := db.queue.filter (fun e => !(e.taskId == taskId)) }
          some (true, notifyCycleLimit db2 task2 (hasResults db taskId))
        else
          let task2 : UserTask := { task with
            status := .queued, cyclesCompleted := cycles, updatedAt := now }
          some (true, { db with
            tasks := db.tasks.map (fun t => if t.id == taskId then task2 else t),
            queue := db.queue.map (fun e =>
              if e.taskId == taskId then
                { e with workerId := none, startedAt := none, updatedAt := now }
              else e) })
      else
        let task2 : UserTask := { task with
          status := .failed, processingCompletedAt := some now,
          errorMessage := errorMessage, updatedAt := now }
        some (true, { db with
          tasks := db.tasks.map (fun t => if t.id == taskId then task2 else t),
          queue := db.queue.filter (fun e => !(e.taskId == taskId)) })

/-! ## Rate limiting (`shared/database/operations/rate_limit.py`) -/

/-- `RateLimitRecord` row; the `*_reset_at`, `last_action_at`,
`created_at` and `updated_at` columns default to `datetime.now` at row
creation. -/
structure RateLimitRecord where
  userId : Nat
  actionType : String
  countPerMinute : Nat
  countPerHour : Nat
  countPerDay : Nat
  minuteResetAt : Int
  hourResetAt : Int
  dayResetAt : Int
  lastActionAt : Int
  createdAt : Int
  updatedAt : Int
deriving DecidableEq, Repr

/-- The `limits` table of `check_rate_limit`; unknown action types fall
back to the `message` limits (`limits.get(action_type,
limits["message"])`). -/
def actionLimits (actionType : String) : Nat × Nat × Nat :=
  if actionType = ("task_create") then (2, 10, 50)
  else if actionType = ("command") then (10, 100, 500)
  else (20, 200, 1000)

/-- The record inserted on first action: counters start at one, all
timestamps default to the creation time. -/
def newRateRecord (now : Int) (userId : Nat) (actionType : String) :
    RateLimitRecord :=
  ⟨userId, actionType, 1, 1, 1, now, now, now, now, now, now⟩

/-- The reset pass of `check_rate_limit`: each of the three counters is
zeroed, with its reset timestamp moved to `now`, when its window
(60 s / 3600 s / 86400 s) has elapsed. -/
def resetWindows (now : Int) (r : RateLimitRecord) : RateLimitRecord :=
  let r1 := if 60 ≤ now - r.minuteResetAt then
    { r with countPerMinute := 0, minuteResetAt := now } else r
  let r2 := if 3600 ≤ now - r1.hourResetAt then
    { r1 with countPerHour := 0, hourResetAt := now } else r1
  if 86400 ≤ now - r2.dayResetAt then
    { r2 with countPerDay := 0, dayResetAt := now } else r2

/-- `check_rate_limit(user_id, action_type)` at time `now`, given the
stored record for the `(user, action)` pair.  Returns the
`(allowed, reason)` pair together with the committed record: on a new
user a fresh record, on denial the function returns without
committing — the session is discarded, so the stored record stays as it
was — and on success the post-reset record with all three counters
incremented. -/
def check_rate_limit (now : Int) (userId : Nat) (actionType : String)
    (record : Option RateLimitRecord) :
    (Bool × String) × Option RateLimitRecord :=
  let lm := actionLimits actionType
  match record with
  | none => ((true, ("OK")), some (newRateRecord now userId actionType))
  | some r0 =>
    let r := resetWindows now r0
    if lm.1 ≤ r.countPerMinute then
      ((false, ("Rate limit exceeded: ") ++ toString lm.1 ++ (" ")
        ++ actionType ++ (" per minute")), some r0)
    else if lm.2.1 ≤ r.countPerHour then
      ((false, ("Rate limit exceeded: ") ++ toString lm.2.1 ++ (" ")
        ++ actionType ++ (" per hour")), some r0)
    else if lm.2.2 ≤ r.countPerDay then
      ((false, ("Rate limit exceeded: ") ++ toString lm.2.2 ++ (" ")
        ++ actionType ++ (" per day")), some r0)
    else
      ((true, ("OK")), some { r with
        countPerMinute := r.countPerMinute + 1,
        countPerHour := r.countPerHour + 1,
        countPerDay := r.countPerDay + 1,
        lastActionAt := now, updatedAt := now })

/-! ## Claim C7 — heuristic relevance formula -/

/-- Claim C7: whenever the LLM analysis pathway is disabled or fails,
the relevance assigned to a candidate by `_heuristic_relevance` equals
`clamp(0.7 · (100 · |query tokens ∩ document tokens| / |query tokens|)
+ 0.3 · clamp(bm25_score, 0, 100), 0, 100)` (for a query with at least
one token; the document tokens are those of title plus abstract); in
particular, for query "AI for medical imaging" and a candidate titled
"RAG for medical imaging" with empty abstract the relevance is
`0.7·(3/4)·100 + 0.3·clamp(bm25, 0, 100)` for every bm25 value. -/
theorem heuristic_relevance_formula :
    (∀ (q : String) (c : PaperCandidate), wordSet q ≠ ∅ →
      heuristic_relevance q c =
        max 0 (min 100
          (7 / 10 * (100 * ((wordSet q ∩ wordSet (c.title ++ (" ") ++ c.summary)).card : ℚ)
              / ((wordSet q).card : ℚ))
            + 3 / 10 * max 0 (min 100 c.bm25Score))))
    ∧ (∀ b : ℚ, heuristic_relevance ("AI for medical imaging")
        { arxivId := ("x"), title := ("RAG for medical imaging"),
          summary := (""), bm25Score := b }
        = 7 / 10 * (3 / 4 * 100) + 3 / 10 * max 0 (min 100 b)) := by
  have hmain : ∀ (q : String) (c : PaperCandidate), wordSet q ≠ ∅ →
      heuristic_relevance q c =
        max 0 (min 100
          (7 / 10 * (100 * ((wordSet q ∩ wordSet (c.title ++ (" ") ++ c.summary)).card : ℚ)
              / ((wordSet q).card : ℚ))
            + 3 / 10 * max 0 (min 100 c.bm25Score))) := by
    intro q c hq
    have hpos : 0 < (wordSet q).card :=
      Finset.card_pos.2 (Finset.nonempty_iff_ne_empty.2 hq)
    have hone : (1 : ℚ) ≤ ((wordSet q).card : ℚ) := by
      exact_mod_cast Nat.one_le_iff_ne_zero.2 (Nat.pos_iff_ne_zero.1 hpos)
    have hmax : max ((wordSet q).card : ℚ) 1 = ((wordSet q).card : ℚ) :=
      max_eq_left hone
    simp only [heuristic_relevance, if_neg hq, hmax]
    congr 2
    ring
  refine ⟨hmain, ?_⟩
  intro b
  set c : PaperCandidate :=
    { arxivId := ("x"), title := ("RAG for medical imaging"),
      summary := (""), bm25Score := b } with hc
  have hq : wordSet ("AI for medical imaging") ≠ ∅ := by decide
  have hcard : ((wordSet ("AI for medical imaging")).card : ℚ) = 4 := by
    norm_cast
  have hint :
      ((wordSet ("AI for medical imaging")
        ∩ wordSet (c.title ++ (" ") ++ c.summary)).card : ℚ) = 3 := by
    rw [hc]; norm_cast
  rw [hmain _ _ hq, hint, hcard]
  have hcb0 : (0 : ℚ) ≤ max 0 (min 100 c.bm25Score) := le_max_left 0 _
  have hcb1 : max 0 (min 100 c.bm25Score) ≤ 100 :=
    max_le (by norm_num) (min_le_left _ _)
  have hcb : max 0 (min 100 c.bm25Score) = max 0 (min 100 b) := by rw [hc]
  rw [min_eq_right (by rw [hcb] at hcb1 ⊢; nlinarith), max_eq_right (by nlinarith),
    hcb]
  norm_num

/-- Witness for C7: the hypothesis (non-empty query token set) holds at
the concrete scenario input and the theorem applies there. -/
theorem heuristic_relevance_formula_witness :
    wordSet ("AI for medical imaging") ≠ ∅ ∧
    heuristic_relevance ("AI for medical imaging")
      { arxivId := ("x"), title := ("RAG for medical imaging"),
        summary := (""), bm25Score := 40 }
      = 7 / 10 * (3 / 4 * 100) + 3 / 10 * max 0 (min 100 40) :=
  ⟨by decide, heuristic_relevance_formula.2 40⟩

/-! ## Claim C8 — selection boundaries -/

theorem score_result_nonneg (r : AnalysisResult) : 0 ≤ score_result r := by
  simp only [score_result]
  split
  · exact le_min (by norm_num)
      (le_add_of_nonneg_of_le (le_max_left 0 _) (by norm_num))
  · exact le_max_left 0 _

theorem score_result_le_100 (r : AnalysisResult) : score_result r ≤ 100 := by
  simp only [score_result]
  split
  · exact min_le_left _ _
  · exact max_le (by norm_num) (min_le_left _ _)

/-- The scored items kept by `select_top` before sorting: with the
threshold at zero, nothing is filtered out. -/
theorem select_top_items_all (task : PipelineTask)
    (analyzed : List AnalysisResult) (h0 : task.minRelevance = 0) :
    analyzed.filterMap (fun r =>
        if task.minRelevance ≤ score_result r then some (scoredOf r) else none)
      = analyzed.map scoredOf := by
  induction analyzed with
  | nil => rfl
  | cons r rest ih =>
    simp only [List.filterMap_cons, List.map_cons, h0] at ih ⊢
    rw [if_pos (score_result_nonneg r), ih]

/-- With the threshold at zero the selection is literally the capped
take of the sorted scored items. -/
theorem select_top_zero_eq (task : PipelineTask)
    (analyzed : List AnalysisResult) (h0 : task.minRelevance = 0) :
    select_top task analyzed =
      (pySort scoreDescLe (analyzed.map scoredOf)).take
        (max 1 (min analyzed.length 3)) := by
  unfold select_top
  rw [select_top_items_all task analyzed h0]
  simp only [List.length_map]

/-- Claim C8 (amended): with `min_relevance = 0` every analyzed item
passes the threshold, so the selection is the top `min(n, 3)` items by
score — it contains all analyzed items exactly when there are at most
three of them, the `[:max(1, min(len, 3))]` cap trimming larger
selections; with `min_relevance = 100` every selected item has score
exactly 100, the score being the relevance clamped to `[0,100]` plus
the +5 code/dataset/benchmark boost clamped at 100. -/
theorem select_top_boundary (task : PipelineTask)
    (analyzed : List AnalysisResult) :
    (task.minRelevance = 0 →
      (select_top task analyzed).length = min analyzed.length 3
      ∧ (analyzed.length ≤ 3 →
        (select_top task analyzed).Perm (analyzed.map scoredOf)))
    ∧ (task.minRelevance = 100 →
      ∀ x ∈ select_top task analyzed, x.overallScore = 100) := by
  constructor
  · intro h0
    rw [select_top_zero_eq task analyzed h0]
    have hslen : (pySort scoreDescLe (analyzed.map scoredOf)).length
        = analyzed.length := by
      rw [(pySort_perm _ _).length_eq, List.length_map]
    constructor
    · rw [List.length_take, hslen]
      rcases Nat.eq_zero_or_pos analyzed.length with hz | hp
      · simp [hz]
      · have hm : max 1 (min analyzed.length 3) = min analyzed.length 3 :=
          max_eq_right (le_min hp (by norm_num))
        rw [hm]
        exact min_eq_left (min_le_left _ _)
    · intro h3
      rw [min_eq_left h3]
      rcases Nat.eq_zero_or_pos analyzed.length with hz | hp
      · have hnil : analyzed = [] := List.length_eq_zero.1 hz
        simp [hnil, pySort]
      · rw [max_eq_right hp]
        have ht : (pySort scoreDescLe (analyzed.map scoredOf)).take analyzed.length
            = pySort scoreDescLe (analyzed.map scoredOf) := by
          rw [← hslen]; exact List.take_length _
        rw [ht]
        exact pySort_perm _ _
  · intro h100 x hx
    unfold select_top at hx
    have hx2 := List.mem_of_mem_take hx
    have hx3 := (pySort_perm _ _).mem_iff.1 hx2
    rcases List.mem_filterMap.1 hx3 with ⟨r, _, hr⟩
    rw [h100] at hr
    by_cases hle : (100 : ℚ) ≤ score_result r
    · rw [if_pos hle] at hr
      cases hr
      exact le_antisymm (score_result_le_100 r) hle
    · rw [if_neg hle] at hr
      cases hr

/-- Witness for C8: both hypotheses hold at a concrete two-item input
(scores 50 and 100). -/
theorem select_top_boundary_witness :
    ({ query := ("q"), minRelevance := 0 } : PipelineTask).minRelevance = 0
    ∧ (select_top { query := ("q"), minRelevance := 0 }
          [⟨{ arxivId := ("a"), title := ("a"), summary := ("") }, 50, (""), none, none⟩]).length
        = min
          ([⟨{ arxivId := ("a"), title := ("a"), summary := ("") }, 50, (""), none, none⟩]
            : List AnalysisResult).length 3 :=
  ⟨by decide,
    ((select_top_boundary { query := ("q"), minRelevance := 0 }
      [⟨{ arxivId := ("a"), title := ("a"), summary := ("") }, 50, (""), none, none⟩]).1
      (by decide)).1⟩

/-- Counterexample for C8 as stated: with `min_relevance = 0` and four
analyzed items (each of relevance 50), `select_top` returns three items,
not all four — the claim that `min_relevance = 0` selects all analyzed
items fails. -/
theorem select_top_counterexample :
    (select_top { query := ("q"), minRelevance := 0 }
      [⟨{ arxivId := ("a"), title := ("a"), summary := ("") }, 50, (""), none, none⟩,
       ⟨{ arxivId := ("b"), title := ("b"), summary := ("") }, 50, (""), none, none⟩,
       ⟨{ arxivId := ("c"), title := ("c"), summary := ("") }, 50, (""), none, none⟩,
       ⟨{ arxivId := ("d"), title := ("d"), summary := ("") }, 50, (""), none, none⟩]).length = 3
    ∧ ([⟨{ arxivId := ("a"), title := ("a"), summary := ("") }, 50, (""), none, none⟩,
       ⟨{ arxivId := ("b"), title := ("b"), summary := ("") }, 50, (""), none, none⟩,
       ⟨{ arxivId := ("c"), title := ("c"), summary := ("") }, 50, (""), none, none⟩,
       ⟨{ arxivId := ("d"), title := ("d"), summary := ("") }, 50, (""), none, none⟩]
        : List AnalysisResult).length = 4 := by
  constructor
  · decide
  · decide

/-! ## Claim C4 — rate limiting -/

/-- When no window has elapsed, the reset pass leaves the record
untouched. -/
theorem resetWindows_id (now : Int) (r : RateLimitRecord)
    (hm : now - r.minuteResetAt < 60) (hh : now - r.hourResetAt < 3600)
    (hd : now - r.dayResetAt < 86400) : resetWindows now r = r := by
  simp only [resetWindows]
  rw [if_neg (show ¬ (60 ≤ now - r.minuteResetAt) by omega)]
  rw [if_neg (show ¬ (3600 ≤ now - r.hourResetAt) by omega)]
  rw [if_neg (show ¬ (86400 ≤ now - r.dayResetAt) by omega)]

/-- Claim C4: for every (user, action kind) pair with an existing
record, a check first zeroes the counters whose window has elapsed
(`resetWindows`), then denies with the failing window's message —
minute, then hour, then day — if any post-reset counter has reached the
action's limit, committing nothing on denial (the stored record stays
`r0`); only when all three pass are all three counters incremented (and
the action timestamps updated).  In particular the third `task_create`
within 60 seconds is rejected with exactly
"Rate limit exceeded: 2 task_create per minute", the counters staying
as they were after the second call. -/
theorem check_rate_limit_spec :
    (∀ (now : Int) (uid : Nat) (act : String) (r0 : RateLimitRecord),
      ((actionLimits act).1 ≤ (resetWindows now r0).countPerMinute →
        check_rate_limit now uid act (some r0) =
          ((false, ("Rate limit exceeded: ") ++ toString (actionLimits act).1
            ++ (" ") ++ act ++ (" per minute")), some r0))
      ∧ ((resetWindows now r0).countPerMinute < (actionLimits act).1 →
          (actionLimits act).2.1 ≤ (resetWindows now r0).countPerHour →
        check_rate_limit now uid act (some r0) =
          ((false, ("Rate limit exceeded: ") ++ toString (actionLimits act).2.1
            ++ (" ") ++ act ++ (" per hour")), some r0))
      ∧ ((resetWindows now r0).countPerMinute < (actionLimits act).1 →
          (resetWindows now r0).countPerHour < (actionLimits act).2.1 →
          (actionLimits act).2.2 ≤ (resetWindows now r0).countPerDay →
        check_rate_limit now uid act (some r0) =
          ((false, ("Rate limit exceeded: ") ++ toString (actionLimits act).2.2
            ++ (" ") ++ act ++ (" per day")), some r0))
      ∧ ((resetWindows now r0).countPerMinute < (actionLimits act).1 →
          (resetWindows now r0).countPerHour < (actionLimits act).2.1 →
          (resetWindows now r0).countPerDay < (actionLimits act).2.2 →
        check_rate_limit now uid act (some r0) =
          ((true, ("OK")), some { resetWindows now r0 with
            countPerMinute := (resetWindows now r0).countPerMinute + 1,
            countPerHour := (resetWindows now r0).countPerHour + 1,
            countPerDay := (resetWindows now r0).countPerDay + 1,
            lastActionAt := now, updatedAt := now })))
    ∧ (∀ (t0 t1 t2 : Int) (uid : Nat), t1 - t0 < 60 → t2 - t0 < 60 →
        check_rate_limit t0 uid ("task_create") none
          = ((true, ("OK")), some (newRateRecord t0 uid ("task_create")))
        ∧ check_rate_limit t1 uid ("task_create")
            (some (newRateRecord t0 uid ("task_create")))
          = ((true, ("OK")),
              some ⟨uid, ("task_create"), 2, 2, 2, t0, t0, t0, t1, t0, t1⟩)
        ∧ check_rate_limit t2 uid ("task_create")
            (some ⟨uid, ("task_create"), 2, 2, 2, t0, t0, t0, t1, t0, t1⟩)
          = ((false, ("Rate limit exceeded: 2 task_create per minute")),
              some ⟨uid, ("task_create"), 2, 2, 2, t0, t0, t0, t1, t0, t1⟩)) := by
  constructor
  · intro now uid act r0
    refine ⟨?_, ?_, ?_, ?_⟩
    · intro h1
      simp only [check_rate_limit, if_pos h1]
    · intro h1 h2
      simp only [check_rate_limit, if_neg (Nat.not_le.2 h1), if_pos h2]
    · intro h1 h2 h3
      simp only [check_rate_limit, if_neg (Nat.not_le.2 h1),
        if_neg (Nat.not_le.2 h2), if_pos h3]
    · intro h1 h2 h3
      simp only [check_rate_limit, if_neg (Nat.not_le.2 h1),
        if_neg (Nat.not_le.2 h2), if_neg (Nat.not_le.2 h3)]
  · intro t0 t1 t2 uid h1 h2
    have hres1 : resetWindows t1 (newRateRecord t0 uid ("task_create"))
        = newRateRecord t0 uid ("task_create") :=
      resetWindows_id _ _ (by simp only [newRateRecord]; omega)
        (by simp only [newRateRecord]; omega) (by simp only [newRateRecord]; omega)
    have hres2 : resetWindows t2
        (⟨uid, ("task_create"), 2, 2, 2, t0, t0, t0, t1, t0, t1⟩ : RateLimitRecord)
        = ⟨uid, ("task_create"), 2, 2, 2, t0, t0, t0, t1, t0, t1⟩ :=
      resetWindows_id _ _ (by simp only; omega) (by simp only; omega)
        (by simp only; omega)
    refine ⟨rfl, ?_, ?_⟩
    · simp only [check_rate_limit, actionLimits]
      rw [hres1]
      simp only [newRateRecord]
      norm_num
    · simp only [check_rate_limit, actionLimits]
      rw [hres2]
      norm_num
      rfl

/-- Witness for C4: the scenario hypotheses hold at `t0 = 0`, `t1 =
10`, `t2 = 20` and the denial equation follows by the theorem. -/
theorem check_rate_limit_spec_witness :
    ((10 : Int) - 0 < 60) ∧ ((20 : Int) - 0 < 60) ∧
    check_rate_limit 20 7 ("task_create")
        (some ⟨7, ("task_create"), 2, 2, 2, 0, 0, 0, 10, 0, 10⟩)
      = ((false, ("Rate limit exceeded: 2 task_create per minute")),
          some ⟨7, ("task_create"), 2, 2, 2, 0, 0, 0, 10, 0, 10⟩) :=
  ⟨by norm_num, by norm_num,
    (check_rate_limit_spec.2 0 10 20 7 (by norm_num) (by norm_num)).2.2⟩

/-! ## Claim C5 — deduplicating merge -/

theorem dedupFirst_sublist (seen : List String) (l : List PaperCandidate) :
    (dedupFirst seen l).Sublist l := by
  induction l generalizing seen with
  | nil => simp [dedupFirst]
  | cons c rest ih =>
    by_cases h : c.arxivId ∈ seen
    · simp only [dedupFirst, if_pos h]
      exact (ih seen).cons c
    · simp only [dedupFirst, if_neg h]
      exact (ih (c.arxivId :: seen)).cons₂ c

theorem mem_map_dedupFirst (seen : List String) (l : List PaperCandidate)
    (s : String) :
    s ∈ (dedupFirst seen l).map (fun c => c.arxivId) ↔
      s ∉ seen ∧ s ∈ l.map (fun c => c.arxivId) := by
  induction l generalizing seen with
  | nil => simp [dedupFirst]
  | cons c rest ih =>
    by_cases h : c.arxivId ∈ seen
    · simp only [dedupFirst, if_pos h, List.map_cons, List.mem_cons, ih]
      constructor
      · rintro ⟨hns, hmem⟩
        exact ⟨hns, Or.inr hmem⟩
      · rintro ⟨hns, hc | hmem⟩
        · exact absurd (hc ▸ h) hns
        · exact ⟨hns, hmem⟩
    · simp only [dedupFirst, if_neg h, List.map_cons, List.mem_cons, ih]
      constructor
      · rintro (hc | ⟨hns, hmem⟩)
        · subst hc; exact ⟨h, Or.inl rfl⟩
        · exact ⟨fun hs => hns (Or.inr hs), Or.inr hmem⟩
      · rintro ⟨hns, hc | hmem⟩
        · exact Or.inl hc
        · by_cases hsc : s = c.arxivId
          · exact Or.inl hsc
          · exact Or.inr ⟨fun hs => hs.elim hsc hns, hmem⟩

theorem dedupFirst_nodup (seen : List String) (l : List PaperCandidate) :
    ((dedupFirst seen l).map (fun c => c.arxivId)).Nodup := by
  induction l generalizing seen with
  | nil => simp [dedupFirst]
  | cons c rest ih =>
    by_cases h : c.arxivId ∈ seen
    · simp only [dedupFirst, if_pos h]
      exact ih seen
    · simp only [dedupFirst, if_neg h, List.map_cons]
      refine List.Nodup.cons ?_ (ih (c.arxivId :: seen))
      intro hmem
      exact ((mem_map_dedupFirst _ _ _).1 hmem).1 (List.mem_cons_self _ _)

theorem dedupFirst_first_occurrence (seen : List String)
    (l : List PaperCandidate) :
    ∀ c ∈ dedupFirst seen l, c.arxivId ∉ seen ∧
      ∃ l1 l2, l = l1 ++ c :: l2 ∧
        ∀ d ∈ l1, d.arxivId ∈ seen ∨ d.arxivId ≠ c.arxivId := by
  induction l generalizing seen with
  | nil => intro c hc; simp [dedupFirst] at hc
  | cons x rest ih =>
    intro c hc
    by_cases h : x.arxivId ∈ seen
    · rw [dedupFirst, if_pos h] at hc
      obtain ⟨hns, l1, l2, heq, hfirst⟩ := ih seen c hc
      refine ⟨hns, x :: l1, l2, by simp [heq], ?_⟩
      intro d hd
      rcases List.mem_cons.1 hd with hd | hd
      · exact Or.inl (hd ▸ h)
      · exact hfirst d hd
    · rw [dedupFirst, if_neg h] at hc
      rcases List.mem_cons.1 hc with hc | hc
      · subst hc
        exact ⟨h, [], rest, rfl, by intro d hd; cases hd⟩
      · obtain ⟨hns, l1, l2, heq, hfirst⟩ := ih (x.arxivId :: seen) c hc
        have hxc : x.arxivId ≠ c.arxivId :=
          fun he => hns (he ▸ List.mem_cons_self _ _)
        have hns2 : c.arxivId ∉ seen :=
          fun hs => hns (List.mem_cons_of_mem _ hs)
        refine ⟨hns2, x :: l1, l2, by simp [heq], ?_⟩
        intro d hd
        rcases List.mem_cons.1 hd with hd | hd
        · exact Or.inr (hd ▸ hxc)
        · rcases hfirst d hd with hds | hdne
          · rcases List.mem_cons.1 hds with hde | hds
            · exact Or.inr (hde ▸ hxc)
            · exact Or.inl hds
          · exact Or.inr hdne

/-- Claim C5: for every sequence of per-query result pages returned by
the source adapters, the merged candidate list contains each source id
exactly once (the id list is duplicate-free), keeps the first occurrence
of each id in traversal order (the merge is a sublist of the
concatenated pages, and each kept candidate is the first entry of the
traversal carrying its id), and the set of ids of the merged list equals
the union of the id sets of the input pages. -/
theorem collect_candidates_spec (pages : List (List PaperCandidate)) :
    ((collect_candidates pages).map (fun c => c.arxivId)).Nodup
    ∧ (collect_candidates pages).Sublist pages.flatten
    ∧ (∀ c ∈ collect_candidates pages, ∃ l1 l2,
        pages.flatten = l1 ++ c :: l2 ∧ ∀ d ∈ l1, d.arxivId ≠ c.arxivId)
    ∧ (∀ s : String, s ∈ (collect_candidates pages).map (fun c => c.arxivId) ↔
        ∃ page ∈ pages, s ∈ page.map (fun c => c.arxivId)) := by
  refine ⟨dedupFirst_nodup [] _, dedupFirst_sublist [] _, ?_, ?_⟩
  · intro c hc
    obtain ⟨_, l1, l2, heq, hfirst⟩ :=
      dedupFirst_first_occurrence [] pages.flatten c hc
    refine ⟨l1, l2, heq, ?_⟩
    intro d hd
    rcases hfirst d hd with hds | hdne
    · cases hds
    · exact hdne
  · intro s
    simp only [collect_candidates]
    rw [mem_map_dedupFirst]
    simp only [List.not_mem_nil, not_false_iff, true_and, List.mem_map,
      List.mem_flatten]
    constructor
    · rintro ⟨c, ⟨page, hpage, hcpage⟩, hcs⟩
      exact ⟨page, hpage, c, hcpage, hcs⟩
    · rintro ⟨page, hpage, c, hcpage, hcs⟩
      exact ⟨c, ⟨page, hpage, hcpage⟩, hcs⟩

/-- Witness for C5: the union property evaluated at two overlapping
concrete pages. -/
theorem collect_candidates_spec_witness :
    (collect_candidates
      [[{ arxivId := ("s1"), title := ("t"), summary := ("") }],
       [{ arxivId := ("s1"), title := ("u"), summary := ("") },
        { arxivId := ("s2"), title := ("v"), summary := ("") }]]).map
          (fun c => c.arxivId) = [("s1"), ("s2")]
    ∧ (((collect_candidates
      [[{ arxivId := ("s1"), title := ("t"), summary := ("") }],
       [{ arxivId := ("s1"), title := ("u"), summary := ("") },
        { arxivId := ("s2"), title := ("v"), summary := ("") }]]).map
          (fun c => c.arxivId)).Nodup) :=
  ⟨by decide,
    (collect_candidates_spec
      [[{ arxivId := ("s1"), title := ("t"), summary := ("") }],
       [{ arxivId := ("s1"), title := ("u"), summary := ("") },
        { arxivId := ("s2"), title := ("v"), summary := ("") }]]).1⟩

/-! ## Claims C6 and C9 — ranking -/

theorem lexKeyLe_total (x y : ℚ × ℚ) :
    lexKeyLe x y = true ∨ lexKeyLe y x = true := by
  unfold lexKeyLe
  rcases lt_trichotomy x.1 y.1 with h | h | h
  · left; simp [h]
  · rcases le_total x.2 y.2 with h2 | h2
    · left; simp [h, h2]
    · right; simp [h.symm, h2]
  · right; simp [h]

theorem lexKeyLe_trans (x y z : ℚ × ℚ) (h1 : lexKeyLe x y = true)
    (h2 : lexKeyLe y z = true) : lexKeyLe x z = true := by
  simp only [lexKeyLe, Bool.or_eq_true, Bool.and_eq_true, decide_eq_true_eq]
    at h1 h2 ⊢
  rcases h1 with h1 | ⟨h1e, h1r⟩
  · rcases h2 with h2 | ⟨h2e, h2r⟩
    · exact Or.inl (h1.trans h2)
    · exact Or.inl (h2e ▸ h1)
  · rcases h2 with h2 | ⟨h2e, h2r⟩
    · exact Or.inl (h1e ▸ h2)
    · exact Or.inr ⟨h1e.trans h2e, h1r.trans h2r⟩

theorem rankLe_total (a b : PaperCandidate) :
    rankLe a b = true ∨ rankLe b a = true := by
  unfold rankLe
  exact (lexKeyLe_total (sortKey a) (sortKey b)).symm

theorem rankLe_trans (a b c : PaperCandidate) (h1 : rankLe a b = true)
    (h2 : rankLe b c = true) : rankLe a c = true := by
  unfold rankLe at h1 h2 ⊢
  exact lexKeyLe_trans (sortKey c) (sortKey b) (sortKey a) h2 h1

theorem bm25_scores_length (lg : ℚ → ℚ) (queryTokens : List String)
    (documents : List (List String)) :
    (bm25_scores lg queryTokens documents).length = documents.length := by
  simp [bm25_scores]

theorem applyScores_length (lg : ℚ → ℚ) (query : String)
    (candidates : List PaperCandidate) :
    (applyScores lg query candidates).length = candidates.length := by
  simp only [applyScores, List.length_zipWith, bm25_scores_length]
  simp [rankDocs]

theorem rank_core_length (lg : ℚ → ℚ) (query : String)
    (candidates : List PaperCandidate) (topK : Nat) :
    (rank_core lg query candidates topK).length = min topK candidates.length := by
  unfold rank_core
  rw [List.length_take, (pySort_perm _ _).length_eq, applyScores_length]

/-- Claim C6 (amended): for every candidate list and query, the ranking
output is the `top_k` take — hence a list of length `min(top_k, N)` —
of a permutation of the score-annotated input sorted in weakly
decreasing lexicographic `(bm25_score, recency)` order, where the
recency key is the `updated` timestamp when present and `0.0` when
absent; ties beyond the key keep input order (the sort is stable); and
every returned candidate is an input candidate carrying its computed
BM25 score in `bm25_score`.  (The `lg` parameter is the logarithm used
by the idf formula.) -/
theorem rank_candidates_spec (lg : ℚ → ℚ) (query : String)
    (cands : List PaperCandidate) (topK : Nat) :
    ∃ ys : List PaperCandidate,
      ys.Perm (applyScores lg query cands)
      ∧ ys.Pairwise (fun a b => rankLe a b = true)
      ∧ rank_candidates lg query (listIterable cands) topK = ys.take topK
      ∧ (rank_candidates lg query (listIterable cands) topK).length
          = min topK cands.length
      ∧ ∀ c ∈ rank_candidates lg query (listIterable cands) topK,
          ∃ i, ∃ h : i < cands.length,
            c = { cands.get ⟨i, h⟩ with
                  bm25Score :=
                    (bm25_scores lg (tokenize query) (rankDocs cands)).getD i 0 } := by
  refine ⟨pySort rankLe (applyScores lg query cands), pySort_perm _ _,
    pySort_pairwise rankLe rankLe_total rankLe_trans _, rfl, ?_, ?_⟩
  · exact rank_core_length lg query cands topK
  · intro c hc
    have hc2 : c ∈ pySort rankLe (applyScores lg query cands) :=
      List.mem_of_mem_take hc
    have hc3 : c ∈ applyScores lg query cands := (pySort_perm _ _).mem_iff.1 hc2
    obtain ⟨i, hi, hgot⟩ := List.mem_iff_getElem.1 hc3
    have hilen : i < cands.length := by
      rw [applyScores_length] at hi
      exact hi
    have hslen : i < (bm25_scores lg (tokenize query) (rankDocs cands)).length := by
      rw [bm25_scores_length]
      simp [rankDocs, hilen]
    refine ⟨i, hilen, ?_⟩
    rw [← hgot]
    show (applyScores lg query cands)[i] = _
    unfold applyScores
    rw [List.getElem_zipWith]
    rw [List.get_eq_getElem]
    congr 1
    rw [List.getD_eq_getElem?_getD, List.getElem?_eq_getElem hslen]
    rfl

/-- Witness for C6: the theorem applied to a concrete two-candidate
input; the resulting take has the stated length. -/
theorem rank_candidates_spec_witness :
    (rank_candidates (fun _ => 0) ("q")
      (listIterable [{ arxivId := ("a"), title := ("t"), summary := ("") }]) 1).length
      = min 1 ([{ arxivId := ("a"), title := ("t"), summary := ("") }]
        : List PaperCandidate).length := by
  obtain ⟨ys, h1, h2, h3, h4, h5⟩ := rank_candidates_spec (fun _ => 0) ("q")
    [{ arxivId := ("a"), title := ("t"), summary := ("") }] 1
  exact h4

/-- Counterexample for C6 as stated: the claim says candidates lacking
a timestamp rank last among ties, but `rank_candidates` maps a missing
`updated` timestamp to recency `0.0`, which sorts **above** a tied
candidate whose timestamp is negative (a pre-1970 `updated` date).  The
two candidates below have identical (empty) documents, so their BM25
scores are both `0` whatever the logarithm is — the idf values multiply
a zero term frequency and are never used — yet the candidate without a
timestamp is returned first, not last. -/
theorem rank_candidates_counterexample :
    ((rank_candidates (fun _ => 0) ("?")
      (listIterable
        [{ arxivId := ("neg-ts"), title := (""), summary := (""),
           updated := some (-100) },
         { arxivId := ("no-ts"), title := (""), summary := ("") }]) 2).map
        (fun c => c.arxivId) = [("no-ts"), ("neg-ts")])
    ∧ ((applyScores (fun _ => 0) ("?")
        [{ arxivId := ("neg-ts"), title := (""), summary := (""),
           updated := some (-100) },
         { arxivId := ("no-ts"), title := (""), summary := ("") }]).map
        (fun c => c.bm25Score) = [0, 0]) := by
  constructor
  · decide
  · decide

/-- Claim C9: `rank_candidates` materializes its iterable argument once
in the debug-log statement before taking the ranking copy, so a
one-shot iterator that would yield a non-empty candidate sequence
produces an empty ranking, while the same candidates passed as a list
are ranked normally (the ranking of the second materialization, which
for a list is non-empty whenever the list is and `top_k > 0`). -/
theorem rank_candidates_iterator_spec (lg : ℚ → ℚ) (query : String)
    (xs : List PaperCandidate) (topK : Nat) :
    rank_candidates lg query (oneShotIterable xs) topK = []
    ∧ rank_candidates lg query (listIterable xs) topK
        = rank_core lg query xs topK
    ∧ (xs ≠ [] → 0 < topK →
        rank_candidates lg query (listIterable xs) topK ≠ []) := by
  refine ⟨?_, rfl, ?_⟩
  · show (pySort rankLe (applyScores lg query ((oneShotIterable xs).runs 1))).take topK = []
    simp [oneShotIterable, applyScores, pySort]
  · intro hne hk
    intro hnil
    have hlen := rank_core_length lg query xs topK
    rw [show rank_candidates lg query (listIterable xs) topK
        = rank_core lg query xs topK from rfl] at hnil
    rw [hnil] at hlen
    have hxs : 0 < xs.length := List.length_pos.2 hne
    simp only [List.length_nil] at hlen
    omega

/-- Witness for C9: at a concrete singleton list and `top_k = 1`, the
one-shot iterator yields no results while the list input yields some. -/
theorem rank_candidates_iterator_spec_witness :
    rank_candidates (fun _ => 0) ("q")
      (oneShotIterable [{ arxivId := ("a"), title := ("t"), summary := ("") }]) 1
      = []
    ∧ ([{ arxivId := ("a"), title := ("t"), summary := ("") }]
        : List PaperCandidate) ≠ []
    ∧ rank_candidates (fun _ => 0) ("q")
        (listIterable [{ arxivId := ("a"), title := ("t"), summary := ("") }]) 1
        ≠ [] :=
  ⟨(rank_candidates_iterator_spec (fun _ => 0) ("q")
      [{ arxivId := ("a"), title := ("t"), summary := ("") }] 1).1,
    by decide,
    (rank_candidates_iterator_spec (fun _ => 0) ("q")
      [{ arxivId := ("a"), title := ("t"), summary := ("") }] 1).2.2
      (by decide) (by decide)⟩

/-! ## Claims C1–C3 — cycle completion -/

theorem isHeadOf_append_self (p r : List Char) : isHeadOf p (p ++ r) = true := by
  induction p with
  | nil => rfl
  | cons c cs ih => simp [isHeadOf, ih]

theorem isHeadOf_append_three (a b c r : List Char) :
    isHeadOf (a ++ (b ++ c)) (a ++ (b ++ (c ++ r))) = true := by
  have h := isHeadOf_append_self (a ++ (b ++ c)) r
  simpa [List.append_assoc] using h

theorem isHeadOf_ne_head (p q : List Char) (c d : Char) (h : ¬ c = d) :
    isHeadOf (c :: p) (d :: q) = false := by
  simp [isHeadOf]
  intro he
  exact absurd he h

/-- The has-results body starts with the congratulation head (task id
included). -/
theorem congrats_startsWith (t : UserTask) (plan : String) :
    pyStartsWith (congratsBody t plan)
      (("🎉 <b>Task #") ++ toString t.id ++ (" completed!</b>")) = true := by
  unfold pyStartsWith congratsBody
  simp only [String.data_append, List.append_assoc]
  exact isHeadOf_append_three _ _ _ _

/-- The no-results body starts with the refinement head. -/
theorem refine_startsWith (t : UserTask) (plan : String) :
    pyStartsWith (refineBody t plan)
      (("🔄 <b>Task #") ++ toString t.id ++ (" completed</b>")) = true := by
  unfold pyStartsWith refineBody
  simp only [String.data_append, List.append_assoc]
  exact isHeadOf_append_three _ _ _ _

/-- The no-results body does not start with the congratulation head:
the first characters differ. -/
theorem refine_not_congrats (t : UserTask) (plan s : String) :
    pyStartsWith (refineBody t plan) (("🎉 <b>Task #") ++ s) = false := by
  unfold pyStartsWith refineBody
  have h1 : (("🎉 <b>Task #") : String).data
      = '🎉' :: ((" <b>Task #") : String).data := rfl
  have h2 : (("🔄 <b>Task #") : String).data
      = '🔄' :: ((" <b>Task #") : String).data := rfl
  simp only [String.data_append, h1, h2, List.cons_append, List.append_assoc]
  exact isHeadOf_ne_head _ _ _ _ (by decide)

/-- The has-results body does not start with the refinement head. -/
theorem congrats_not_refine (t : UserTask) (plan s : String) :
    pyStartsWith (congratsBody t plan) (("🔄 <b>Task #") ++ s) = false := by
  unfold pyStartsWith congratsBody
  have h1 : (("🎉 <b>Task #") : String).data
      = '🎉' :: ((" <b>Task #") : String).data := rfl
  have h2 : (("🔄 <b>Task #") : String).data
      = '🔄' :: ((" <b>Task #") : String).data := rfl
  simp only [String.data_append, h1, h2, List.cons_append, List.append_assoc]
  exact isHeadOf_ne_head _ _ _ _ (by decide)

/-- `session.get` after the single-task update returns the updated
task. -/
theorem find?_update_eq (l : List UserTask) (taskId : Nat)
    (task task2 : UserTask)
    (hfind : l.find? (fun t => t.id == taskId) = some task)
    (h2 : task2.id = task.id) :
    (l.map (fun t => if t.id == taskId then task2 else t)).find?
      (fun t => t.id == taskId) = some task2 := by
  induction l with
  | nil => simp at hfind
  | cons x rest ih =>
    by_cases hx : (x.id == taskId) = true
    · rw [@List.find?_cons_of_pos _ (fun t => t.id == taskId) x rest hx] at hfind
      have hxteq : x = task := by injection hfind
      subst hxteq
      have h2x : (task2.id == taskId) = true := by
        rw [h2]; exact hx
      simp only [List.map_cons, if_pos hx]
      exact @List.find?_cons_of_pos _ (fun t => t.id == taskId) task2 _ h2x
    · rw [@List.find?_cons_of_neg _ (fun t => t.id == taskId) x rest hx] at hfind
      simp only [List.map_cons, if_neg hx]
      rw [@List.find?_cons_of_neg _ (fun t => t.id == taskId) x _ hx]
      exact ih hfind

/-- With at most one queue row per task, `scalar_one_or_none` does not
raise. -/
theorem queueOne_ok_of_le_one (db : DB) (taskId : Nat)
    (h : (queueRows db taskId).length ≤ 1) :
    queueOne db taskId = .ok (queueRows db taskId).head? := by
  unfold queueOne
  cases hq : queueRows db taskId with
  | nil => simp
  | cons e rest =>
    cases rest with
    | nil => simp
    | cons f r2 =>
      rw [hq] at h
      simp at h

/-- Deleting all queue rows of the task empties its queue view. -/
theorem queueRows_after_delete (db : DB) (taskId : Nat)
    (tasks2 : List UserTask) (outbound2 : List OutboundMessage) :
    queueRows { db with
        tasks := tasks2,
        queue := db.queue.filter (fun e => !(e.taskId == taskId)),
        outbound := outbound2 } taskId = [] := by
  unfold queueRows
  simp only [List.filter_filter]
  have : (fun (e : TaskQueue) => (e.taskId == taskId) && !(e.taskId == taskId))
      = fun _ => false := by
    funext e
    exact Bool.and_not_self _
  rw [this, List.filter_false]

/-- Under referential integrity of findings (each finding of the task
joined by an analysis and a paper row), the has-results check is
exactly the existence of a finding for the task. -/
theorem hasResults_iff_finding (db : DB) (taskId : Nat)
    (hwf : ∀ f ∈ db.findings, f.taskId = taskId →
      (∃ a ∈ db.analyses, a.paperId = f.paperId)
        ∧ ∃ p ∈ db.papers, p.id = f.paperId) :
    hasResults db taskId = true ↔ ∃ f ∈ db.findings, f.taskId = taskId := by
  unfold hasResults
  rw [List.any_eq_true]
  constructor
  · rintro ⟨f, hf, hcond⟩
    rw [Bool.and_eq_true, beq_iff_eq] at hcond
    exact ⟨f, hf, hcond.1⟩
  · rintro ⟨f, hf, hft⟩
    obtain ⟨⟨a, ha, hap⟩, ⟨p, hp, hpp⟩⟩ := hwf f hf hft
    refine ⟨f, hf, ?_⟩
    rw [Bool.and_eq_true, beq_iff_eq]
    refine ⟨hft, ?_⟩
    rw [List.any_eq_true]
    refine ⟨a, ha, ?_⟩
    rw [Bool.and_eq_true, beq_iff_eq]
    refine ⟨hap, ?_⟩
    rw [List.any_eq_true]
    refine ⟨p, hp, ?_⟩
    rw [beq_iff_eq, hpp, hap]

/-- Claim C3: for a task present in the store (and a well-formed queue,
at most one row per task), `complete_cycle` with `success = false`
returns true, leaves `cycles_completed` unchanged, sets the status to
failed, records the error message and the completion time, removes the
queue entry, and sends nothing. -/
theorem complete_cycle_failure_spec (now : Int) (db : DB) (taskId : Nat)
    (task : UserTask) (err : Option String)
    (hfind : findTask db taskId = some task)
    (hq : (queueRows db taskId).length ≤ 1) :
    ∃ db2, complete_task_processing now db taskId false err = some (true, db2)
      ∧ findTask db2 taskId = some { task with
            status := TaskStatus.failed, processingCompletedAt := some now,
            errorMessage := err, updatedAt := now }
      ∧ (findTask db2 taskId).map (fun t => t.cyclesCompleted)
          = some task.cyclesCompleted
      ∧ queueRows db2 taskId = []
      ∧ db2.outbound = db.outbound := by
  have hqo := queueOne_ok_of_le_one db taskId hq
  refine ⟨{ db with
      tasks := db.tasks.map (fun t => if t.id == taskId then
        { task with
          status := TaskStatus.failed,
          processingCompletedAt := some now,
          errorMessage := err,
          updatedAt := now } else t),
      queue := db.queue.filter (fun e => !(e.taskId == taskId)) },
    ?_, ?_, ?_, ?_, ?_⟩
  · simp only [complete_task_processing, hfind, hqo]
    rfl
  · exact find?_update_eq db.tasks taskId task _ hfind rfl
  · rw [show findTask { db with
        tasks := db.tasks.map (fun t => if t.id == taskId then
          { task with
            status := TaskStatus.failed,
            processingCompletedAt := some now,
            errorMessage := err,
            updatedAt := now } else t),
        queue := db.queue.filter (fun e => !(e.taskId == taskId)) } taskId
        = some { task with
            status := TaskStatus.failed,
            processingCompletedAt := some now,
            errorMessage := err,
            updatedAt := now }
      from find?_update_eq db.tasks taskId task _ hfind rfl]
    rfl
  · exact queueRows_after_delete db taskId _ _
  · rfl

/-- Witness for C3: evaluated at a one-task, one-queue-row store. -/
theorem complete_cycle_failure_spec_witness :
    ∃ db2, complete_task_processing 5
        { tasks := [{
            id := 1, userId := 1, description := ("d"),
            status := .processing, cyclesCompleted := 2, maxCycles := 5 }],
          queue := [{ taskId := 1, workerId := some ("w") }],
          users := [{ id := 1, telegramId := 10, plan := .free }],
          findings := [], analyses := [], papers := [], outbound := [] }
        1 false (some ("boom")) = some (true, db2)
      ∧ findTask db2 1 = some {
          id := 1, userId := 1, description := ("d"),
          status := .failed, cyclesCompleted := 2, maxCycles := 5,
          processingCompletedAt := some 5, errorMessage := some ("boom"),
          updatedAt := 5 }
      ∧ (findTask db2 1).map (fun t => t.cyclesCompleted) = some 2
      ∧ queueRows db2 1 = []
      ∧ db2.outbound = ({
          tasks := [{
            id := 1, userId := 1, description := ("d"),
            status := .processing, cyclesCompleted := 2, maxCycles := 5 }],
          queue := [{ taskId := 1, workerId := some ("w") }],
          users := [{ id := 1, telegramId := 10, plan := .free }],
          findings := [], analyses := [], papers := [],
          outbound := [] } : DB).outbound :=
  complete_cycle_failure_spec 5
    { tasks := [{
        id := 1, userId := 1, description := ("d"),
        status := .processing, cyclesCompleted := 2, maxCycles := 5 }],
      queue := [{ taskId := 1, workerId := some ("w") }],
      users := [{ id := 1, telegramId := 10, plan := .free }],
      findings := [], analyses := [], papers := [], outbound := [] }
    1
    { id := 1, userId := 1, description := ("d"),
      status := .processing, cyclesCompleted := 2, maxCycles := 5 }
    (some ("boom")) (by decide) (by decide)

/-- `findTask` after the single-task update, whatever happens to the
queue and outbound tables. -/
theorem findTask_update (db : DB) (taskId : Nat) (task task2 : UserTask)
    (q : List TaskQueue) (o : List OutboundMessage)
    (hfind : findTask db taskId = some task) (h2 : task2.id = task.id) :
    findTask { db with
      tasks := db.tasks.map (fun t => if t.id == taskId then task2 else t),
      queue := q, outbound := o } taskId = some task2 :=
  find?_update_eq db.tasks taskId task task2 hfind h2

/-- All queue rows of the task have their worker and start time cleared
by the requeue update. -/
theorem queueRows_after_reset (db : DB) (taskId : Nat) (now : Int)
    (tasks2 : List UserTask) :
    ∀ e ∈ queueRows { db with
        tasks := tasks2,
        queue := db.queue.map (fun e => if e.taskId == taskId then
          { e with workerId := none, startedAt := none, updatedAt := now }
          else e) } taskId,
      e.workerId = none ∧ e.startedAt = none := by
  intro e he
  unfold queueRows at he
  rw [List.filter_map] at he
  obtain ⟨e0, he0, rfl⟩ := List.mem_map.1 he
  have hp := List.of_mem_filter he0
  by_cases h0 : (e0.taskId == taskId) = true
  · rw [if_pos h0]
    exact ⟨rfl, rfl⟩
  · exfalso
    apply h0
    simp only [Function.comp_apply] at hp
    rw [if_neg h0] at hp
    exact hp

/-- Claim C1 (amended): for a task in processing (with its user present,
at most one queue row, and findings joined by analysis and paper rows),
a successful `complete_cycle` increments `cycles_completed` by exactly
one.  If the new count has reached `max_cycles`, the task becomes
completed, its queue entry is deleted, and one `cycle_limit_notification`
outbound row is appended whose body starts with the congratulation head
"🎉 <b>Task #<id> completed!</b>" iff at least one Finding exists for
the task, and otherwise with the refinement head
"🔄 <b>Task #<id> completed</b>" (the heads carry the chat markup of the
source literals; the claimed markup-free "🎉 Task #<id> completed!" is
not a prefix of the body).  If the count is still below `max_cycles`,
the status returns to queued, nothing is sent, and every queue row of
the task has its worker id and start time reset. -/
theorem complete_cycle_success_spec (now : Int) (db : DB) (taskId : Nat)
    (task : UserTask) (u : StoreUser)
    (hfind : findTask db taskId = some task)
    (_hstatus : task.status = TaskStatus.processing)
    (hq : (queueRows db taskId).length ≤ 1)
    (huser : getUser db task.userId = some u)
    (hwf : ∀ f ∈ db.findings, f.taskId = taskId →
      (∃ a ∈ db.analyses, a.paperId = f.paperId)
        ∧ ∃ p ∈ db.papers, p.id = f.paperId) :
    ∃ db2, complete_task_processing now db taskId true none = some (true, db2)
      ∧ (findTask db2 taskId).map (fun t => t.cyclesCompleted)
          = some (task.cyclesCompleted + 1)
      ∧ (task.maxCycles ≤ task.cyclesCompleted + 1 →
          (findTask db2 taskId).map (fun t => t.status)
            = some TaskStatus.completed
          ∧ queueRows db2 taskId = []
          ∧ ∃ m, db2.outbound = db.outbound ++ [m]
              ∧ m.taskType = ("cycle_limit_notification")
              ∧ m.status = ("completed")
              ∧ ∃ body, m.result = some body
                ∧ (pyStartsWith body (("🎉 <b>Task #") ++ toString taskId
                      ++ (" completed!</b>")) = true
                    ↔ ∃ f ∈ db.findings, f.taskId = taskId)
                ∧ (pyStartsWith body (("🔄 <b>Task #") ++ toString taskId
                      ++ (" completed</b>")) = true
                    ↔ ¬ ∃ f ∈ db.findings, f.taskId = taskId))
      ∧ (task.cyclesCompleted + 1 < task.maxCycles →
          (findTask db2 taskId).map (fun t => t.status)
            = some TaskStatus.queued
          ∧ db2.outbound = db.outbound
          ∧ ∀ e ∈ queueRows db2 taskId,
              e.workerId = none ∧ e.startedAt = none) := by
  have hqo := queueOne_ok_of_le_one db taskId hq
  have hid : task.id = taskId := by
    have := List.find?_some hfind
    rwa [beq_iff_eq] at this
  have hiff := hasResults_iff_finding db taskId hwf
  by_cases hmax : task.maxCycles ≤ task.cyclesCompleted + 1
  · -- cycle limit reached: completed, queue row deleted, notification sent
    refine ⟨{ db with
        tasks := db.tasks.map (fun t => if t.id == taskId then
          { task with
            status := TaskStatus.completed,
            cyclesCompleted := task.cyclesCompleted + 1,
            processingCompletedAt := some now,
            updatedAt := now } else t),
        queue := db.queue.filter (fun e => !(e.taskId == taskId)),
        outbound := db.outbound ++
          [⟨("cycle_limit_notification"), u.telegramId, ("completed"),
            some (if hasResults db taskId then
              congratsBody { task with
                status := TaskStatus.completed,
                cyclesCompleted := task.cyclesCompleted + 1,
                processingCompletedAt := some now,
                updatedAt := now } (planName u)
            else refineBody { task with
                status := TaskStatus.completed,
                cyclesCompleted := task.cyclesCompleted + 1,
                processingCompletedAt := some now,
                updatedAt := now } (planName u))⟩] },
      ?_, ?_, ?_, ?_⟩
    · simp only [complete_task_processing, hfind, hqo]
      rw [if_pos (show task.maxCycles ≤ task.cyclesCompleted + 1 from hmax)]
      simp only [if_true]
      simp only [notifyCycleLimit]
      rw [show getUser { db with
          tasks := db.tasks.map (fun t => if t.id == taskId then
            { task with
              status := TaskStatus.completed,
              cyclesCompleted := task.cyclesCompleted + 1,
              processingCompletedAt := some now,
              updatedAt := now } else t),
          queue := db.queue.filter (fun e => !(e.taskId == taskId)) }
          task.userId = some u from huser]
    · rw [findTask_update db taskId task { task with
          status := TaskStatus.completed,
          cyclesCompleted := task.cyclesCompleted + 1,
          processingCompletedAt := some now,
          updatedAt := now } _ _ hfind rfl]
      rfl
    · intro _
      refine ⟨?_, ?_, ?_⟩
      · rw [findTask_update db taskId task { task with
            status := TaskStatus.completed,
            cyclesCompleted := task.cyclesCompleted + 1,
            processingCompletedAt := some now,
            updatedAt := now } _ _ hfind rfl]
        rfl
      · exact queueRows_after_delete db taskId _ _
      · refine ⟨_, rfl, rfl, rfl, _, rfl, ?_, ?_⟩
        · by_cases hres : hasResults db taskId = true
          · rw [if_pos hres]
            have hpos : pyStartsWith (congratsBody { task with
                status := TaskStatus.completed,
                cyclesCompleted := task.cyclesCompleted + 1,
                processingCompletedAt := some now,
                updatedAt := now } (planName u))
                (("🎉 <b>Task #") ++ toString taskId ++ (" completed!</b>"))
                = true := by
              have h := congrats_startsWith { task with
                status := TaskStatus.completed,
                cyclesCompleted := task.cyclesCompleted + 1,
                processingCompletedAt := some now,
                updatedAt := now } (planName u)
              simpa [hid] using h
            rw [hpos]
            simp only [eq_self_iff_true, true_iff]
            exact hiff.1 hres
          · rw [if_neg hres]
            have hneg : pyStartsWith (refineBody { task with
                status := TaskStatus.completed,
                cyclesCompleted := task.cyclesCompleted + 1,
                processingCompletedAt := some now,
                updatedAt := now } (planName u))
                (("🎉 <b>Task #") ++ (toString taskId ++ (" completed!</b>")))
                = false := refine_not_congrats _ _ _
            rw [← String.append_assoc] at hneg
            rw [hneg]
            simp only [Bool.false_eq_true, false_iff]
            intro hex
            exact hres (hiff.2 hex)
        · by_cases hres : hasResults db taskId = true
          · rw [if_pos hres]
            have hneg : pyStartsWith (congratsBody { task with
                status := TaskStatus.completed,
                cyclesCompleted := task.cyclesCompleted + 1,
                processingCompletedAt := some now,
                updatedAt := now } (planName u))
                (("🔄 <b>Task #") ++ (toString taskId ++ (" completed</b>")))
                = false := congrats_not_refine _ _ _
            rw [← String.append_assoc] at hneg
            rw [hneg]
            simp only [Bool.false_eq_true, false_iff]
            intro hnex
            exact hnex (hiff.1 hres)
          · rw [if_neg hres]
            have hpos : pyStartsWith (refineBody { task with
                status := TaskStatus.completed,
                cyclesCompleted := task.cyclesCompleted + 1,
                processingCompletedAt := some now,
                updatedAt := now } (planName u))
                (("🔄 <b>Task #") ++ toString taskId ++ (" completed</b>"))
                = true := by
              have h := refine_startsWith { task with
                status := TaskStatus.completed,
                cyclesCompleted := task.cyclesCompleted + 1,
                processingCompletedAt := some now,
                updatedAt := now } (planName u)
              simpa [hid] using h
            rw [hpos]
            simp only [eq_self_iff_true, true_iff]
            intro hex
            exact hres (hiff.2 hex)
    · intro hlt
      omega
  · -- more cycles needed: back to queued, queue row reset, nothing sent
    refine ⟨{ db with
        tasks := db.tasks.map (fun t => if t.id == taskId then
          { task with
            status := TaskStatus.queued,
            cyclesCompleted := task.cyclesCompleted + 1,
            updatedAt := now } else t),
        queue := db.queue.map (fun e => if e.taskId == taskId then
          { e with workerId := none, startedAt := none, updatedAt := now }
          else e) },
      ?_, ?_, ?_, ?_⟩
    · simp only [complete_task_processing, hfind, hqo]
      rw [if_neg (show ¬ (task.maxCycles ≤ task.cyclesCompleted + 1) from hmax)]
      rfl
    · rw [show findTask { db with
          tasks := db.tasks.map (fun t => if t.id == taskId then
            { task with
              status := TaskStatus.queued,
              cyclesCompleted := task.cyclesCompleted + 1,
              updatedAt := now } else t),
          queue := db.queue.map (fun e => if e.taskId == taskId then
            { e with workerId := none, startedAt := none, updatedAt := now }
            else e) } taskId
          = some { task with
            status := TaskStatus.queued,
            cyclesCompleted := task.cyclesCompleted + 1,
            updatedAt := now }
        from find?_update_eq db.tasks taskId task _ hfind rfl]
      rfl
    · intro hle
      exact absurd hle hmax
    · intro _
      refine ⟨?_, rfl, ?_⟩
      · rw [show findTask { db with
            tasks := db.tasks.map (fun t => if t.id == taskId then
              { task with
                status := TaskStatus.queued,
                cyclesCompleted := task.cyclesCompleted + 1,
                updatedAt := now } else t),
            queue := db.queue.map (fun e => if e.taskId == taskId then
              { e with workerId := none, startedAt := none, updatedAt := now }
              else e) } taskId
            = some { task with
              status := TaskStatus.queued,
              cyclesCompleted := task.cyclesCompleted + 1,
              updatedAt := now }
          from find?_update_eq db.tasks taskId task _ hfind rfl]
        rfl
      · exact queueRows_after_reset db taskId now _

/-- The concrete store used for the C1 scenario: task 1 in processing
at four of five cycles, one queue row, its user, and one finding joined
to an analysis and a paper. -/
def dbScenario : DB :=
  { tasks := [{
      id := 1, userId := 1, description := ("d"),
      status := .processing, cyclesCompleted := 4, maxCycles := 5 }],
    queue := [{ taskId := 1, workerId := some ("w") }],
    users := [{ id := 1, telegramId := 10, plan := .free }],
    findings := [{ taskId := 1, paperId := 7 }],
    analyses := [{ paperId := 7 }],
    papers := [{ id := 7 }],
    outbound := [] }

/-- Counterexample for C1 as stated: completing the fifth cycle of task
1 (which has a Finding) enqueues one `cycle_limit_notification` whose
body starts with "🎉 <b>Task #1 completed!</b>" — the chat-markup form —
and therefore does **not** start with the claimed literal
"🎉 Task #1 completed!". -/
theorem complete_cycle_notification_counterexample :
    (complete_task_processing 0 dbScenario 1 true none).map
      (fun r => r.2.outbound.map (fun m =>
        (m.taskType,
          pyStartsWith (m.result.getD ("")) ("🎉 Task #1 completed!"),
          pyStartsWith (m.result.getD ("")) ("🎉 <b>Task #1 completed!</b>"))))
      = some [(("cycle_limit_notification"), false, true)]
    ∧ dbScenario.findings.any (fun f => f.taskId == 1) = true := by
  constructor
  · decide
  · decide

/-- Witness for C1: the amended theorem applied at the concrete
scenario store. -/
theorem complete_cycle_success_spec_witness :
    ∃ db2, complete_task_processing 0 dbScenario 1 true none
      = some (true, db2) := by
  obtain ⟨db2, heq, -, -, -⟩ := complete_cycle_success_spec 0 dbScenario 1
    { id := 1, userId := 1, description := ("d"),
      status := .processing, cyclesCompleted := 4, maxCycles := 5 }
    { id := 1, telegramId := 10, plan := .free }
    (by decide) (by decide) (by decide) (by decide) (by decide)
  exact ⟨db2, heq⟩

/-! Helper evaluation lemmas shared by the idempotence analysis. -/

theorem notifyCycleLimit_tasks (db : DB) (t : UserTask) (h : Bool) :
    (notifyCycleLimit db t h).tasks = db.tasks := by
  unfold notifyCycleLimit
  cases getUser db t.userId <;> rfl

theorem notifyCycleLimit_queue (db : DB) (t : UserTask) (h : Bool) :
    (notifyCycleLimit db t h).queue = db.queue := by
  unfold notifyCycleLimit
  cases getUser db t.userId <;> rfl

/-- `findTask` and `queueRows` read only their own table. -/
theorem findTask_congr (db1 db2 : DB) (taskId : Nat)
    (h : db1.tasks = db2.tasks) : findTask db1 taskId = findTask db2 taskId := by
  unfold findTask
  rw [h]

theorem queueRows_congr (db1 db2 : DB) (taskId : Nat)
    (h : db1.queue = db2.queue) : queueRows db1 taskId = queueRows db2 taskId := by
  unfold queueRows
  rw [h]

theorem filter_after_delete (q : List TaskQueue) (taskId : Nat) :
    (q.filter (fun e => !(e.taskId == taskId))).filter
      (fun e => e.taskId == taskId) = [] := by
  rw [List.filter_filter]
  have h : (fun (e : TaskQueue) => (e.taskId == taskId) && !(e.taskId == taskId))
      = fun _ => false := by
    funext e
    exact Bool.and_not_self _
  rw [h, List.filter_false]

theorem filter_after_reset_length (q : List TaskQueue) (taskId : Nat) (now : Int) :
    ((q.map (fun e => if e.taskId == taskId then
        { e with workerId := none, startedAt := none, updatedAt := now }
        else e)).filter (fun e => e.taskId == taskId)).length
      = (q.filter (fun e => e.taskId == taskId)).length := by
  rw [List.filter_map, List.length_map]
  have h : ((fun (e : TaskQueue) => e.taskId == taskId) ∘
      (fun e => if e.taskId == taskId then
        { e with workerId := none, startedAt := none, updatedAt := now }
        else e)) = fun e => e.taskId == taskId := by
    funext e
    simp only [Function.comp_apply]
    by_cases he : (e.taskId == taskId) = true
    · rw [if_pos he]
    · rw [if_neg he]
  rw [h]

/-- Evaluation of a successful completion that reaches the cycle
limit. -/
theorem complete_success_eval_completed (now : Int) (db : DB) (taskId : Nat)
    (task : UserTask)
    (hfind : findTask db taskId = some task)
    (hq : (queueRows db taskId).length ≤ 1)
    (hmax : task.maxCycles ≤ task.cyclesCompleted + 1) :
    complete_task_processing now db taskId true none =
      some (true, notifyCycleLimit { db with
        tasks := db.tasks.map (fun t => if t.id == taskId then
          { task with
            status := TaskStatus.completed,
            cyclesCompleted := task.cyclesCompleted + 1,
            processingCompletedAt := some now,
            updatedAt := now } else t),
        queue := db.queue.filter (fun e => !(e.taskId == taskId)) }
        { task with
          status := TaskStatus.completed,
          cyclesCompleted := task.cyclesCompleted + 1,
          processingCompletedAt := some now,
          updatedAt := now }
        (hasResults db taskId)) := by
  have hqo := queueOne_ok_of_le_one db taskId hq
  simp only [complete_task_processing, hfind, hqo]
  rw [if_pos (show task.maxCycles ≤ task.cyclesCompleted + 1 from hmax)]
  rfl

/-- Evaluation of a successful completion that still has cycles left. -/
theorem complete_success_eval_queued (now : Int) (db : DB) (taskId : Nat)
    (task : UserTask)
    (hfind : findTask db taskId = some task)
    (hq : (queueRows db taskId).length ≤ 1)
    (hmax : ¬ task.maxCycles ≤ task.cyclesCompleted + 1) :
    complete_task_processing now db taskId true none =
      some (true, { db with
        tasks := db.tasks.map (fun t => if t.id == taskId then
          { task with
            status := TaskStatus.queued,
            cyclesCompleted := task.cyclesCompleted + 1,
            updatedAt := now } else t),
        queue := db.queue.map (fun e => if e.taskId == taskId then
          { e with workerId := none, startedAt := none, updatedAt := now }
          else e) }) := by
  have hqo := queueOne_ok_of_le_one db taskId hq
  simp only [complete_task_processing, hfind, hqo]
  rw [if_neg hmax]
  rfl

/-- Evaluation of a failed completion. -/
theorem complete_failure_eval (now : Int) (db : DB) (taskId : Nat)
    (task : UserTask) (err : Option String)
    (hfind : findTask db taskId = some task)
    (hq : (queueRows db taskId).length ≤ 1) :
    complete_task_processing now db taskId false err =
      some (true, { db with
        tasks := db.tasks.map (fun t => if t.id == taskId then
          { task with
            status := TaskStatus.failed,
            processingCompletedAt := some now,
            errorMessage := err,
            updatedAt := now } else t),
        queue := db.queue.filter (fun e => !(e.taskId == taskId)) }) := by
  have hqo := queueOne_ok_of_le_one db taskId hq
  simp only [complete_task_processing, hfind, hqo]
  rfl

/-- Claim C2 (corrected): `complete_task_processing` has **no**
task-status guard, so it is not idempotent.  A second application with
`success = false` does leave the status, cycle count, queue view and
outbound queue exactly as after the first (only timestamps are
rewritten), but a second application with `success = true` increments
`cycles_completed` a second time: after the first call the count is
`n + 1` and after the second it is `n + 2` — the second call is not a
no-op. -/
theorem complete_cycle_not_idempotent_spec (now now2 : Int) (db : DB)
    (taskId : Nat) (task : UserTask) (err : Option String)
    (hfind : findTask db taskId = some task)
    (hq : (queueRows db taskId).length ≤ 1) :
    (∀ db2, complete_task_processing now db taskId false err = some (true, db2) →
      ∃ db3, complete_task_processing now2 db2 taskId false err = some (true, db3)
        ∧ (findTask db3 taskId).map (fun t => (t.status, t.cyclesCompleted))
            = (findTask db2 taskId).map (fun t => (t.status, t.cyclesCompleted))
        ∧ queueRows db3 taskId = queueRows db2 taskId
        ∧ db3.outbound = db2.outbound)
    ∧ (∀ db2, complete_task_processing now db taskId true none = some (true, db2) →
      (findTask db2 taskId).map (fun t => t.cyclesCompleted)
          = some (task.cyclesCompleted + 1)
      ∧ ∃ db3, complete_task_processing now2 db2 taskId true none
            = some (true, db3)
          ∧ (findTask db3 taskId).map (fun t => t.cyclesCompleted)
              = some (task.cyclesCompleted + 2)) := by
  constructor
  · intro db2 heq
    rw [complete_failure_eval now db taskId task err hfind hq] at heq
    simp only [Option.some.injEq, Prod.mk.injEq, true_and] at heq
    subst heq
    have hfind2 := findTask_update db taskId task { task with
      status := TaskStatus.failed, processingCompletedAt := some now,
      errorMessage := err, updatedAt := now } (db.queue.filter
        (fun e => !(e.taskId == taskId))) db.outbound hfind rfl
    have hrows : queueRows { db with
        tasks := db.tasks.map (fun t => if t.id == taskId then
          { task with
            status := TaskStatus.failed,
            processingCompletedAt := some now,
            errorMessage := err,
            updatedAt := now } else t),
        queue := db.queue.filter (fun e => !(e.taskId == taskId)) } taskId
        = [] := by
      unfold queueRows
      exact filter_after_delete db.queue taskId
    have heval2 := complete_failure_eval now2 _ taskId _ err hfind2
      (by rw [hrows]; simp)
    refine ⟨_, heval2, ?_, ?_, ?_⟩
    · rw [hfind2, findTask_update _ taskId _ { task with
        status := TaskStatus.failed, processingCompletedAt := some now2,
        errorMessage := err, updatedAt := now2 } _ _ hfind2 rfl]
      rfl
    · rw [hrows]
      unfold queueRows
      exact filter_after_delete _ taskId
    · rfl
  · intro db2 heq
    by_cases hmax : task.maxCycles ≤ task.cyclesCompleted + 1
    · rw [complete_success_eval_completed now db taskId task hfind hq hmax] at heq
      simp only [Option.some.injEq, Prod.mk.injEq, true_and] at heq
      subst heq
      have hfind2 : findTask (notifyCycleLimit { db with
          tasks := db.tasks.map (fun t => if t.id == taskId then
            { task with
              status := TaskStatus.completed,
              cyclesCompleted := task.cyclesCompleted + 1,
              processingCompletedAt := some now,
              updatedAt := now } else t),
          queue := db.queue.filter (fun e => !(e.taskId == taskId)) }
          { task with
            status := TaskStatus.completed,
            cyclesCompleted := task.cyclesCompleted + 1,
            processingCompletedAt := some now,
            updatedAt := now }
          (hasResults db taskId)) taskId
          = some { task with
            status := TaskStatus.completed,
            cyclesCompleted := task.cyclesCompleted + 1,
            processingCompletedAt := some now,
            updatedAt := now } := by
        rw [findTask_congr _ _ taskId (notifyCycleLimit_tasks _ _ _)]
        exact findTask_update db taskId task _ _ _ hfind rfl
      have hrows2 : queueRows (notifyCycleLimit { db with
          tasks := db.tasks.map (fun t => if t.id == taskId then
            { task with
              status := TaskStatus.completed,
              cyclesCompleted := task.cyclesCompleted + 1,
              processingCompletedAt := some now,
              updatedAt := now } else t),
          queue := db.queue.filter (fun e => !(e.taskId == taskId)) }
          { task with
            status := TaskStatus.completed,
            cyclesCompleted := task.cyclesCompleted + 1,
            processingCompletedAt := some now,
            updatedAt := now }
          (hasResults db taskId)) taskId = [] := by
        rw [queueRows_congr _ _ taskId (notifyCycleLimit_queue _ _ _)]
        unfold queueRows
        exact filter_after_delete db.queue taskId
      refine ⟨by rw [hfind2]; rfl, ?_⟩
      have heval2 := complete_success_eval_completed now2 _ taskId _ hfind2
        (by rw [hrows2]; simp) (by simp only; omega)
      refine ⟨_, heval2, ?_⟩
      rw [findTask_congr _ _ taskId (notifyCycleLimit_tasks _ _ _)]
      rw [findTask_update _ taskId _ {
          id := task.id, userId := task.userId, title := task.title,
          description := task.description, status := TaskStatus.completed,
          cyclesCompleted := task.cyclesCompleted + 1 + 1,
          maxCycles := task.maxCycles,
          processingStartedAt := task.processingStartedAt,
          processingCompletedAt := some now2,
          errorMessage := task.errorMessage,
          updatedAt := now2 } _ _ hfind2 rfl]
      rfl
    · rw [complete_success_eval_queued now db taskId task hfind hq hmax] at heq
      simp only [Option.some.injEq, Prod.mk.injEq, true_and] at heq
      subst heq
      have hfind2 := findTask_update db taskId task { task with
        status := TaskStatus.queued,
        cyclesCompleted := task.cyclesCompleted + 1,
        updatedAt := now }
        (db.queue.map (fun e => if e.taskId == taskId then
          { e with workerId := none, startedAt := none, updatedAt := now }
          else e)) db.outbound hfind rfl
      have hq2 : (queueRows { db with
          tasks := db.tasks.map (fun t => if t.id == taskId then
            { task with
              status := TaskStatus.queued,
              cyclesCompleted := task.cyclesCompleted + 1,
              updatedAt := now } else t),
          queue := db.queue.map (fun e => if e.taskId == taskId then
            { e with workerId := none, startedAt := none, updatedAt := now }
            else e) } taskId).length ≤ 1 := by
        unfold queueRows
        rw [filter_after_reset_length db.queue taskId now]
        exact hq
      refine ⟨by rw [hfind2]; rfl, ?_⟩
      by_cases hmax2 : task.maxCycles ≤ task.cyclesCompleted + 1 + 1
      · have heval2 := complete_success_eval_completed now2 _ taskId _ hfind2
          hq2 (by simpa using hmax2)
        refine ⟨_, heval2, ?_⟩
        rw [findTask_congr _ _ taskId (notifyCycleLimit_tasks _ _ _)]
        rw [findTask_update _ taskId _ {
            id := task.id, userId := task.userId, title := task.title,
            description := task.description, status := TaskStatus.completed,
            cyclesCompleted := task.cyclesCompleted + 1 + 1,
            maxCycles := task.maxCycles,
            processingStartedAt := task.processingStartedAt,
            processingCompletedAt := some now2,
            errorMessage := task.errorMessage,
            updatedAt := now2 } _ _ hfind2 rfl]
        rfl
      · have heval2 := complete_success_eval_queued now2 _ taskId _ hfind2
          hq2 (by simpa using hmax2)
        refine ⟨_, heval2, ?_⟩
        rw [findTask_update _ taskId _ {
            id := task.id, userId := task.userId, title := task.title,
            description := task.description, status := TaskStatus.queued,
            cyclesCompleted := task.cyclesCompleted + 1 + 1,
            maxCycles := task.maxCycles,
            processingStartedAt := task.processingStartedAt,
            processingCompletedAt := task.processingCompletedAt,
            errorMessage := task.errorMessage,
            updatedAt := now2 } _ _ hfind2 rfl]
        rfl

/-- Counterexample for C2 as stated: on the concrete scenario store,
one successful `complete_cycle` brings task 1 to five cycles, completed,
with one outbound notification; applying the same call a second time is
not a no-op — the cycle count grows to six (beyond `max_cycles = 5`)
and a second notification row is appended. -/
theorem complete_cycle_idempotence_counterexample :
    ((complete_task_processing 0 dbScenario 1 true none).bind
      (fun r => complete_task_processing 0 r.2 1 true none)).map
      (fun r => ((findTask r.2 1).map (fun t => t.cyclesCompleted),
        r.2.outbound.length))
      = some (some 6, 2)
    ∧ (complete_task_processing 0 dbScenario 1 true none).map
      (fun r => ((findTask r.2 1).map (fun t => t.cyclesCompleted),
        r.2.outbound.length))
      = some (some 5, 1) := by
  constructor
  · decide
  · decide

/-- The scenario store after one failed completion at time 0 with error
"e". -/
def dbFailedOnce : DB :=
  { tasks := [{
      id := 1, userId := 1, description := ("d"),
      status := .failed, cyclesCompleted := 4, maxCycles := 5,
      processingCompletedAt := some 0, errorMessage := some ("e"),
      updatedAt := 0 }],
    queue := [],
    users := [{ id := 1, telegramId := 10, plan := .free }],
    findings := [{ taskId := 1, paperId := 7 }],
    analyses := [{ paperId := 7 }],
    papers := [{ id := 7 }],
    outbound := [] }

/-- Witness for C2: the failure part of the theorem applied at the
concrete scenario store. -/
theorem complete_cycle_not_idempotent_spec_witness :
    ∃ db3, complete_task_processing 1 dbFailedOnce 1 false (some ("e"))
        = some (true, db3)
      ∧ (findTask db3 1).map (fun t => (t.status, t.cyclesCompleted))
          = (findTask dbFailedOnce 1).map (fun t => (t.status, t.cyclesCompleted))
      ∧ queueRows db3 1 = queueRows dbFailedOnce 1
      ∧ db3.outbound = dbFailedOnce.outbound :=
  (complete_cycle_not_idempotent_spec 0 1 dbScenario 1
    { id := 1, userId := 1, description := ("d"),
      status := .processing, cyclesCompleted := 4, maxCycles := 5 }
    (some ("e")) (by decide) (by decide)).1 dbFailedOnce (by decide)

/-! ## Clean-line lemmas (C10)

The local predicate `cleanOk` implies that every `splitlines` piece is
nonempty and `strip`-invariant, and it is preserved by the operations
`_compact_report_text` performs: joining stripped nonempty pieces with
newlines, taking a character budget, right-stripping, and appending
`"..."`. -/

theorem not_space_ne_nl {c : Char} (h : isPySpace c = false) : (c == '\n') = false := by
  cases hc : c == '\n'
  · rfl
  · have hcn : c = '\n' := eq_of_beq hc
    subst hcn
    exact absurd h (by decide)

theorem pairOk_of_not_nl {c d : Char} (hc : (c == '\n') = false)
    (hd : (d == '\n') = false) : pairOk c d = true := by
  simp [pairOk, hc, hd]

theorem pairOk_left_not_space {c d : Char} (hc : isPySpace c = false) :
    pairOk c d = true := by
  simp [pairOk, hc]

theorem pairOk_right_not_space {c d : Char} (hd : isPySpace d = false) :
    pairOk c d = true := by
  simp [pairOk, hd]

theorem pairOk_nl_right_elim {d : Char} (h : pairOk '\n' d = true) :
    isPySpace d = false := by
  cases hd : isPySpace d
  · rfl
  · rw [pairOk, hd] at h
    simp [isPySpace] at h

theorem pairOk_nl_left_elim {c : Char} (h : pairOk c '\n' = true) :
    isPySpace c = false := by
  cases hc : isPySpace c
  · rfl
  · rw [pairOk, hc] at h
    simp [isPySpace] at h

theorem adjOk_cons_elim {c : Char} {l : List Char} (h : adjOk (c :: l) = true) :
    adjOk l = true := by
  cases l with
  | nil => rfl
  | cons d r =>
    simp only [adjOk, Bool.and_eq_true] at h
    exact h.2

theorem adjOk_pair_elim {c d : Char} {r : List Char}
    (h : adjOk (c :: d :: r) = true) : pairOk c d = true := by
  simp only [adjOk, Bool.and_eq_true] at h
  exact h.1

theorem adjOk_append_left : ∀ (xs ys : List Char), adjOk (xs ++ ys) = true → adjOk xs = true
  | [], _, _ => rfl
  | [_], _, _ => rfl
  | a :: b :: xs2, ys, h => by
    have h2 : pairOk a b = true ∧ adjOk ((b :: xs2) ++ ys) = true := by
      simpa [adjOk, Bool.and_eq_true] using h
    have ih := adjOk_append_left (b :: xs2) ys h2.2
    simp [adjOk, h2.1, ih]

theorem adjOk_append : ∀ (xs ys : List Char), adjOk xs = true → adjOk ys = true →
    (∀ a b, xs.getLast? = some a → ys.head? = some b → pairOk a b = true) →
    adjOk (xs ++ ys) = true
  | [], ys, _, hy, _ => by simpa using hy
  | [a], ys, _, hy, hj => by
    cases ys with
    | nil => rfl
    | cons b ys2 =>
      have hp := hj a b rfl rfl
      simpa [adjOk, hp] using hy
  | a :: b :: xs2, ys, hx, hy, hj => by
    have hx2 : pairOk a b = true ∧ adjOk (b :: xs2) = true := by
      simpa [adjOk, Bool.and_eq_true] using hx
    have ih := adjOk_append (b :: xs2) ys hx2.2 hy (fun p q hp hq =>
      hj p q (by rw [List.getLast?_cons_cons]; exact hp) hq)
    simp only [List.cons_append]
    simp [adjOk, hx2.1]
    simpa using ih

theorem adjOk_of_no_nl : ∀ (l : List Char), '\n' ∉ l → adjOk l = true
  | [], _ => rfl
  | [_], _ => rfl
  | a :: b :: r, h => by
    have ha : (a == '\n') = false := by
      cases h2 : a == '\n'
      · rfl
      · exact absurd (by rw [eq_of_beq h2]; exact List.mem_cons_self _ _) h
    have hb : (b == '\n') = false := by
      cases h2 : b == '\n'
      · rfl
      · exact absurd (by
          rw [eq_of_beq h2]
          exact List.mem_cons_of_mem _ (List.mem_cons_self _ _)) h
    have ih := adjOk_of_no_nl (b :: r) (fun hm => h (List.mem_cons_of_mem _ hm))
    simp [adjOk, ih, pairOk_of_not_nl ha hb]

theorem getLastD_append_cons : ∀ (xs : List Char) (y : Char) (ys : List Char) (d : Char),
    (xs ++ y :: ys).getLastD d = (y :: ys).getLastD d
  | [], _, _, _ => rfl
  | a :: xs2, y, ys, d => by
    rw [List.cons_append, List.getLastD_cons, getLastD_append_cons xs2 y ys a,
      List.getLastD_cons, List.getLastD_cons]

theorem list_getLastD_mem {α : Type} : ∀ (a : α) (l : List α) (d : α),
    (a :: l).getLastD d ∈ a :: l
  | _, [], _ => by simp [List.getLastD_cons]
  | a, b :: l, d => by
    rw [List.getLastD_cons]
    exact List.mem_cons_of_mem _ (list_getLastD_mem b l a)

theorem lastOkD_append_dots (A : List Char) : lastOkD (A ++ ['.', '.', '.']) = true := by
  rw [lastOkD, getLastD_append_cons A '.' ['.', '.'] 'x']
  decide

theorem headOkD_of_front {xs t l : List Char} (ht : xs ++ t = l)
    (hl : headOkD l = true) : headOkD xs = true := by
  cases xs with
  | nil => rfl
  | cons c r =>
    rw [← ht] at hl
    simpa [headOkD] using hl

theorem dropWhile_head_not {p : Char → Bool} : ∀ (l : List Char) (c : Char) (r : List Char),
    l.dropWhile p = c :: r → p c = false
  | [], _, _, h => by simp at h
  | a :: l2, c, r, h => by
    cases hpa : p a with
    | true =>
      rw [List.dropWhile_cons, if_pos hpa] at h
      exact dropWhile_head_not l2 c r h
    | false =>
      rw [List.dropWhile_cons, if_neg (by simp [hpa])] at h
      injection h with h1 _
      rw [← h1]
      exact hpa

theorem dropWhile_front_eq_self {p : Char → Bool} {c : Char} {l : List Char}
    (h : p c = false) : (c :: l).dropWhile p = c :: l := by
  rw [List.dropWhile_cons, if_neg (by simp [h])]

theorem dropWhile_front_ex (p : Char → Bool) : ∀ (l : List Char),
    ∃ t, t ++ l.dropWhile p = l
  | [] => ⟨[], rfl⟩
  | c :: l2 => by
    cases hpc : p c with
    | true =>
      obtain ⟨t, ht⟩ := dropWhile_front_ex p l2
      exact ⟨c :: t, by rw [List.dropWhile_cons, if_pos hpc, List.cons_append, ht]⟩
    | false =>
      exact ⟨[], by rw [List.dropWhile_cons, if_neg (by simp [hpc])]; rfl⟩

theorem pyRstripList_front (l : List Char) : ∃ t, pyRstripList l ++ t = l := by
  obtain ⟨t, ht⟩ := dropWhile_front_ex isPySpace l.reverse
  refine ⟨t.reverse, ?_⟩
  rw [pyRstripList, ← List.reverse_append, ht, List.reverse_reverse]

theorem pyRstripList_lastOk (l : List Char) : lastOkD (pyRstripList l) = true := by
  rw [pyRstripList]
  cases hw : l.reverse.dropWhile isPySpace with
  | nil => decide
  | cons c r =>
    have hc : isPySpace c = false := dropWhile_head_not _ c r hw
    have h1 : ((c :: r).reverse).getLastD 'x' = c := by
      rw [List.reverse_cons, getLastD_append_cons r.reverse c [] 'x']
      rfl
    rw [lastOkD, h1, hc]
    rfl

theorem pyRstripList_length_le (l : List Char) : (pyRstripList l).length ≤ l.length := by
  obtain ⟨t, ht⟩ := pyRstripList_front l
  have h2 := congrArg List.length ht
  rw [List.length_append] at h2
  omega

theorem pyStripList_eq_rstrip_drop (l : List Char) :
    pyStripList l = pyRstripList (l.dropWhile isPySpace) := rfl

theorem pyStripList_headOk (l : List Char) : headOkD (pyStripList l) = true := by
  rw [pyStripList_eq_rstrip_drop]
  cases hs : pyRstripList (l.dropWhile isPySpace) with
  | nil => rfl
  | cons c r =>
    obtain ⟨t, ht⟩ := pyRstripList_front (l.dropWhile isPySpace)
    rw [hs] at ht
    have ht2 : l.dropWhile isPySpace = c :: (r ++ t) := by
      rw [← ht]
      rfl
    have hc : isPySpace c = false := dropWhile_head_not l c (r ++ t) ht2
    simp [headOkD, hc]

theorem pyStripList_lastOk (l : List Char) : lastOkD (pyStripList l) = true := by
  rw [pyStripList_eq_rstrip_drop]
  exact pyRstripList_lastOk _

theorem mem_of_mem_pyStripList {x : Char} {l : List Char}
    (h : x ∈ pyStripList l) : x ∈ l := by
  rw [pyStripList_eq_rstrip_drop] at h
  obtain ⟨t1, ht1⟩ := pyRstripList_front (l.dropWhile isPySpace)
  obtain ⟨t2, ht2⟩ := dropWhile_front_ex isPySpace l
  have h2 : x ∈ l.dropWhile isPySpace := by
    rw [← ht1]
    exact List.mem_append_left _ h
  rw [← ht2]
  exact List.mem_append_right _ h2

theorem pyStripList_eq_self {c : Char} {l : List Char} (hh : isPySpace c = false)
    (hl : lastOkD (c :: l) = true) : pyStripList (c :: l) = c :: l := by
  rw [pyStripList_eq_rstrip_drop, dropWhile_front_eq_self hh, pyRstripList]
  have hrev : (c :: l).reverse.dropWhile isPySpace = (c :: l).reverse := by
    cases hr : (c :: l).reverse with
    | nil => rfl
    | cons d r2 =>
      have h5 : (c :: l).getLast? = some d := by
        rw [← List.head?_reverse, hr]
        rfl
      have h6 : (c :: l).getLastD 'x' = d := by
        rw [List.getLastD_eq_getLast?, h5]
        rfl
      have hd : isPySpace d = false := by
        rw [lastOkD, h6] at hl
        simpa using hl
      exact dropWhile_front_eq_self hd
  rw [hrev, List.reverse_reverse]

theorem pyStripList_ne_nil {c : Char} (l : List Char) (hc : isPySpace c = false) :
    pyStripList (c :: l) ≠ [] := by
  rw [pyStripList_eq_rstrip_drop, dropWhile_front_eq_self hc, pyRstripList]
  intro he
  rw [List.reverse_eq_nil_iff] at he
  have h3 := List.dropWhile_eq_nil_iff.mp he
  have h4 : isPySpace c = true := h3 c (by simp)
  rw [hc] at h4
  exact Bool.false_ne_true h4

theorem cleanOk_parts {l : List Char} (h : cleanOk l = true) :
    headOkD l = true ∧ lastOkD l = true ∧ adjOk l = true := by
  rw [cleanOk] at h
  simp only [Bool.and_eq_true] at h
  exact ⟨h.1.1, h.1.2, h.2⟩

theorem cleanOk_build {l : List Char} (h1 : headOkD l = true) (h2 : lastOkD l = true)
    (h3 : adjOk l = true) : cleanOk l = true := by
  rw [cleanOk, h1, h2, h3]
  rfl

theorem splitNL_ne_nil : ∀ (l : List Char), splitNL l ≠ []
  | [] => by simp [splitNL]
  | c :: cs => by
    simp only [splitNL]
    split
    · exact List.cons_ne_nil _ _
    · split
      · exact List.cons_ne_nil _ _
      · exact List.cons_ne_nil _ _

theorem splitNL_no_nl : ∀ (l : List Char) (p : List Char), p ∈ splitNL l → '\n' ∉ p
  | [], p, hp => by
    simp [splitNL] at hp
    subst hp
    simp
  | c :: cs, p, hp => by
    simp only [splitNL] at hp
    by_cases hc : (c == '\n') = true
    · rw [if_pos hc] at hp
      rcases List.mem_cons.mp hp with h | h
      · subst h
        simp
      · exact splitNL_no_nl cs p h
    · rw [if_neg hc] at hp
      cases hsp : splitNL cs with
      | nil => exact absurd hsp (splitNL_ne_nil cs)
      | cons hh tt =>
        rw [hsp] at hp
        rcases List.mem_cons.mp hp with h | h
        · subst h
          intro hmem
          rcases List.mem_cons.mp hmem with h1 | h1
          · exact hc (by rw [← h1]; exact beq_self_eq_true '\n')
          · exact splitNL_no_nl cs hh (by rw [hsp]; exact List.mem_cons_self _ _) h1
        · exact splitNL_no_nl cs p (by rw [hsp]; exact List.mem_cons_of_mem _ h)

/-- Workhorse for the clean-line bridge: without any assumption on the
first character, good adjacency and a non-whitespace last character make
every piece after the first nonempty and unpadded, and give the first
piece an unpadded tail. -/
theorem splitNL_aux : ∀ (n : Nat) (l : List Char), l.length ≤ n →
    adjOk l = true → lastOkD l = true →
    lastOkD ((splitNL l).headD []) = true
    ∧ ∀ p ∈ (splitNL l).tail, p ≠ [] ∧ headOkD p = true ∧ lastOkD p = true := by
  intro n
  induction n with
  | zero =>
    intro l hl _ _
    have hnil : l = [] := List.eq_nil_of_length_eq_zero (Nat.le_zero.mp hl)
    subst hnil
    refine ⟨by decide, ?_⟩
    intro p hp
    simp [splitNL] at hp
  | succ n ih =>
    intro l hl hadj hlast
    cases l with
    | nil =>
      refine ⟨by decide, ?_⟩
      intro p hp
      simp [splitNL] at hp
    | cons c cs =>
      by_cases hc : (c == '\n') = true
      · have hceq : c = '\n' := eq_of_beq hc
        subst hceq
        cases cs with
        | nil => exact absurd hlast (by decide)
        | cons d cs2 =>
          have hd : isPySpace d = false := pairOk_nl_right_elim (adjOk_pair_elim hadj)
          have hdn : (d == '\n') = false := not_space_ne_nl hd
          cases hs : splitNL cs2 with
          | nil => exact absurd hs (splitNL_ne_nil cs2)
          | cons h2 t2 =>
            have hmid : splitNL (d :: cs2) = (d :: h2) :: t2 := by
              simp [splitNL, hs, hdn]
            have hIH := ih (d :: cs2)
              (by simp only [List.length_cons] at hl ⊢; omega)
              (adjOk_cons_elim hadj)
              (by simpa only [lastOkD, List.getLastD_cons] using hlast)
            have hsl : splitNL ('\n' :: d :: cs2) = [] :: (d :: h2) :: t2 := by
              simp [splitNL, hs, hdn]
            rw [hsl]
            refine ⟨by rw [List.headD_cons]; decide, ?_⟩
            intro p hp
            rcases List.mem_cons.mp hp with h | h
            · subst h
              refine ⟨List.cons_ne_nil _ _, by simp [headOkD, hd], ?_⟩
              have h1 := hIH.1
              rw [hmid] at h1
              simpa using h1
            · exact hIH.2 p (by rw [hmid]; exact h)
      · have hcn : (c == '\n') = false := by
          cases h2 : c == '\n'
          · rfl
          · exact absurd h2 hc
        cases hs : splitNL cs with
        | nil => exact absurd hs (splitNL_ne_nil cs)
        | cons h2 t2 =>
          have hsl : splitNL (c :: cs) = (c :: h2) :: t2 := by
            simp [splitNL, hs, hcn]
          have hadjcs : adjOk cs = true := adjOk_cons_elim hadj
          have hlastcs : lastOkD cs = true := by
            cases cs with
            | nil => decide
            | cons d cs2 => simpa only [lastOkD, List.getLastD_cons] using hlast
          have hIH := ih cs (by simp only [List.length_cons] at hl; omega) hadjcs hlastcs
          rw [hsl]
          constructor
          · show lastOkD (c :: h2) = true
            cases hh2 : h2 with
            | nil =>
              cases cs with
              | nil => simpa using hlast
              | cons d cs2 =>
                by_cases hdnl : (d == '\n') = true
                · have hcsp : isPySpace c = false := pairOk_nl_left_elim (by
                    have hp := adjOk_pair_elim hadj
                    rwa [eq_of_beq hdnl] at hp)
                  simp [lastOkD, List.getLastD_cons, hcsp]
                · exfalso
                  have hdn2 : (d == '\n') = false := by
                    cases h3 : d == '\n'
                    · rfl
                    · exact absurd h3 hdnl
                  cases hs2 : splitNL cs2 with
                  | nil => exact splitNL_ne_nil cs2 hs2
                  | cons a b =>
                    have h4 : splitNL (d :: cs2) = (d :: a) :: b := by
                      simp [splitNL, hs2, hdn2]
                    rw [h4] at hs
                    injection hs with h5 _
                    rw [hh2] at h5
                    exact List.cons_ne_nil d a h5
            | cons x h3 =>
              have h6 := hIH.1
              rw [hs, hh2] at h6
              simp only [List.headD_cons] at h6
              simp only [lastOkD, List.getLastD_cons] at h6 ⊢
              exact h6
          · intro p hp
            exact hIH.2 p (by rw [hs]; exact hp)

/-- Every piece of `splitNL` of a clean text is nonempty with
non-whitespace first and last characters. -/
theorem splitNL_clean {l : List Char} (hne : l ≠ []) (hadj : adjOk l = true)
    (hhead : headOkD l = true) (hlast : lastOkD l = true) :
    ∀ p ∈ splitNL l, p ≠ [] ∧ headOkD p = true ∧ lastOkD p = true := by
  cases l with
  | nil => exact absurd rfl hne
  | cons c cs =>
    have hcs : isPySpace c = false := by simpa [headOkD] using hhead
    have hcn : (c == '\n') = false := not_space_ne_nl hcs
    cases hs : splitNL cs with
    | nil => exact absurd hs (splitNL_ne_nil cs)
    | cons h2 t2 =>
      have hsl : splitNL (c :: cs) = (c :: h2) :: t2 := by
        simp [splitNL, hs, hcn]
      have haux := splitNL_aux (c :: cs).length (c :: cs) (le_refl _) hadj hlast
      rw [hsl] at haux
      intro p hp
      rw [hsl] at hp
      rcases List.mem_cons.mp hp with h | h
      · subst h
        refine ⟨List.cons_ne_nil _ _, by simp [headOkD, hcs], ?_⟩
        simpa using haux.1
      · exact haux.2 p h

theorem mem_of_mem_dropLast {α : Type} : ∀ (l : List α) (x : α), x ∈ l.dropLast → x ∈ l
  | [], _, h => by simp at h
  | [_], _, h => by simp at h
  | a :: b :: r, x, h => by
    rw [List.dropLast_cons₂] at h
    rcases List.mem_cons.mp h with h1 | h1
    · rw [h1]
      exact List.mem_cons_self _ _
    · exact List.mem_cons_of_mem _ (mem_of_mem_dropLast (b :: r) x h1)

theorem mem_splitNL_of_mem_pySplitlinesL {d : List Char} {p : List Char}
    (hp : p ∈ pySplitlinesL d) : p ∈ splitNL d := by
  simp only [pySplitlinesL] at hp
  split at hp
  · exact absurd hp (List.not_mem_nil p)
  · split at hp
    · exact mem_of_mem_dropLast _ p hp
    · exact hp

/-- The bridge: a text satisfying `cleanOk` splits into lines that are
all nonempty and `strip`-invariant. -/
theorem clean_lines_of_cleanOk {s : String} (h : cleanOk s.data = true) :
    ∀ ln ∈ pySplitlines s, ln ≠ ("") ∧ pyStrip ln = ln := by
  intro ln hln
  simp only [pySplitlines, List.mem_map] at hln
  obtain ⟨p, hp, hmk⟩ := hln
  rcases hdata : s.data with _ | ⟨c, cs⟩
  · rw [hdata] at hp
    simp [pySplitlinesL] at hp
  · rw [hdata] at h hp
    obtain ⟨hhead, hlast, hadj⟩ := cleanOk_parts h
    have hall := splitNL_clean (List.cons_ne_nil c cs) hadj hhead hlast
    have hps : pySplitlinesL (c :: cs) = splitNL (c :: cs) := by
      simp only [pySplitlinesL]
      rw [if_neg (by simp)]
      rw [if_neg ?hlastpiece]
      case hlastpiece =>
        intro heq
        have hmem : (splitNL (c :: cs)).getLastD [] ∈ splitNL (c :: cs) := by
          cases hs : splitNL (c :: cs) with
          | nil => exact absurd hs (splitNL_ne_nil _)
          | cons a b => exact list_getLastD_mem a b []
        exact (hall _ hmem).1 heq
    rw [hps] at hp
    obtain ⟨hne, hh, hl2⟩ := hall p hp
    subst hmk
    constructor
    · intro he
      have h2 := congrArg String.data he
      simp at h2
      exact hne h2
    · show String.mk (pyStripList p) = String.mk p
      cases p with
      | nil => exact absurd rfl hne
      | cons a q =>
        have ha : isPySpace a = false := by simpa [headOkD] using hh
        rw [pyStripList_eq_self ha hl2]

theorem joinNL_cons_ex (p : List Char) (ps : List (List Char)) :
    ∃ t, joinNL (p :: ps) = p ++ t := by
  cases ps with
  | nil => exact ⟨[], by simp [joinNL]⟩
  | cons q r => exact ⟨'\n' :: joinNL (q :: r), by simp [joinNL]⟩

theorem joinNL_ne_nil {p : List Char} (ps : List (List Char)) (hp : p ≠ []) :
    joinNL (p :: ps) ≠ [] := by
  obtain ⟨t, ht⟩ := joinNL_cons_ex p ps
  rw [ht]
  simp [hp]

/-- Joining nonempty unpadded newline-free pieces with newlines yields a
clean text. -/
theorem cleanOk_joinNL : ∀ (ps : List (List Char)),
    (∀ p ∈ ps, p ≠ [] ∧ headOkD p = true ∧ lastOkD p = true ∧ '\n' ∉ p) →
    cleanOk (joinNL ps) = true
  | [], _ => by decide
  | [p], h => by
    obtain ⟨hne, hh, hl, hnl⟩ := h p (List.mem_cons_self _ _)
    have : joinNL [p] = p := by simp [joinNL]
    rw [this]
    exact cleanOk_build hh hl (adjOk_of_no_nl p hnl)
  | p :: q :: r, h => by
    obtain ⟨hne, hh, hl, hnl⟩ := h p (List.mem_cons_self _ _)
    have hrest := cleanOk_joinNL (q :: r) (fun x hx => h x (List.mem_cons_of_mem _ hx))
    have hqne : q ≠ [] := (h q (List.mem_cons_of_mem _ (List.mem_cons_self _ _))).1
    have hJne : joinNL (q :: r) ≠ [] := joinNL_ne_nil r hqne
    obtain ⟨hJh, hJl, hJa⟩ := cleanOk_parts hrest
    have hstep : joinNL (p :: q :: r) = p ++ '\n' :: joinNL (q :: r) := by
      simp [joinNL]
    rw [hstep]
    cases hJ : joinNL (q :: r) with
    | nil => exact absurd hJ hJne
    | cons j J2 =>
      rw [hJ] at hJh hJl hJa
      have hhead2 : headOkD (p ++ '\n' :: j :: J2) = true := by
        cases p with
        | nil => exact absurd rfl hne
        | cons a p2 => simpa [headOkD, List.cons_append] using hh
      have hlast2 : lastOkD (p ++ '\n' :: j :: J2) = true := by
        rw [lastOkD, getLastD_append_cons p '\n' (j :: J2) 'x']
        simp only [List.getLastD_cons]
        simpa only [lastOkD, List.getLastD_cons] using hJl
      have hadj2 : adjOk (p ++ '\n' :: j :: J2) = true := by
        refine adjOk_append p ('\n' :: j :: J2) (adjOk_of_no_nl p hnl) ?_ ?_
        · have hjs : isPySpace j = false := by simpa [headOkD] using hJh
          simp [adjOk, hJa, pairOk_right_not_space hjs]
        · intro a b ha hb
          have hb2 : b = '\n' := by
            simp at hb
            exact hb.symm
          subst hb2
          have ha2 : p.getLastD 'x' = a := by
            rw [List.getLastD_eq_getLast?, ha]
            rfl
          have has : isPySpace a = false := by
            rw [lastOkD, ha2] at hl
            simpa using hl
          exact pairOk_left_not_space has
      exact cleanOk_build hhead2 hlast2 hadj2

theorem normalize_pieces_clean (t : String) :
    ∀ q ∈ (pySplitlinesL t.data).filterMap (fun ln =>
        let s := pyStripList ln
        if s = [] then none else some s),
      q ≠ [] ∧ headOkD q = true ∧ lastOkD q = true ∧ '\n' ∉ q := by
  intro q hq
  simp only [List.mem_filterMap] at hq
  obtain ⟨p, hp, hfq⟩ := hq
  by_cases hs : pyStripList p = []
  · simp [hs] at hfq
  · simp only [if_neg hs, Option.some.injEq] at hfq
    subst hfq
    refine ⟨hs, pyStripList_headOk p, pyStripList_lastOk p, ?_⟩
    intro hmem
    have h2 : '\n' ∈ p := mem_of_mem_pyStripList hmem
    have h3 : p ∈ splitNL t.data := mem_splitNL_of_mem_pySplitlinesL hp
    exact splitNL_no_nl t.data p h3 h2

theorem normalize_lines_cleanOk (t : String) :
    cleanOk (normalize_lines t).data = true := by
  have h := cleanOk_joinNL ((pySplitlinesL t.data).filterMap (fun ln =>
      let s := pyStripList ln
      if s = [] then none else some s)) (normalize_pieces_clean t)
  simpa only [normalize_lines] using h

theorem cleanOk_rstrip_take (d : List Char) (n : Nat) (h : cleanOk d = true) :
    cleanOk (pyRstripList (d.take n)) = true := by
  obtain ⟨hhead, _, hadj⟩ := cleanOk_parts h
  obtain ⟨t1, ht1⟩ := pyRstripList_front (d.take n)
  have ht2 : d.take n ++ d.drop n = d := List.take_append_drop n d
  have hfront : pyRstripList (d.take n) ++ (t1 ++ d.drop n) = d := by
    rw [← List.append_assoc, ht1, ht2]
  refine cleanOk_build (headOkD_of_front hfront hhead) (pyRstripList_lastOk _) ?_
  exact adjOk_append_left _ _ (by rw [hfront]; exact hadj)

theorem cleanOk_append_dots {A : List Char} (h : cleanOk A = true) :
    cleanOk (A ++ ['.', '.', '.']) = true := by
  obtain ⟨hh, hl, hadj⟩ := cleanOk_parts h
  have hhead2 : headOkD (A ++ ['.', '.', '.']) = true := by
    cases A with
    | nil => decide
    | cons c r => simpa [headOkD, List.cons_append] using hh
  have hadj2 : adjOk (A ++ ['.', '.', '.']) = true := by
    refine adjOk_append A ['.', '.', '.'] hadj (by decide) ?_
    intro a b ha hb
    have hb2 : b = '.' := by
      simp at hb
      exact hb.symm
    subst hb2
    exact pairOk_right_not_space (by decide)
  exact cleanOk_build hhead2 (lastOkD_append_dots A) hadj2

theorem fallback_text_ne_empty (task : PipelineTask) (selected : List ScoredAnalysis) :
    ¬ fallback_text task selected = ("") := by
  intro he
  have hdata := congrArg String.data he
  simp only [fallback_text, List.map_cons] at hdata
  obtain ⟨t0, ht0⟩ := joinNL_cons_ex
    ((("Findings for your task: ") ++ task.query ++ ("\n")).data)
    (((selected.take 3).map (fun s =>
      ("- ") ++ s.result.candidate.title ++ ("\n  Why useful for this task: ")
        ++ why_for_task task.query s.result.summary
        ++ ("\n  Link: ") ++ pyOrStr s.result.candidate.absUrl
          (pyOrStr s.result.candidate.pdfUrl (("")))) ).map String.data)
  rw [ht0] at hdata
  have hF : (("Findings for your task: ") ++ task.query ++ ("\n")).data
      = 'F' :: ((("indings for your task: ").data ++ task.query.data) ++ ("\n").data) := by
    have h1 : ("Findings for your task: ").data
        = 'F' :: ("indings for your task: ").data := by decide
    simp [String.data_append, h1]
  rw [hF] at hdata
  have hnil : pyStripList ('F' :: (((("indings for your task: ").data
      ++ task.query.data) ++ ("\n").data) ++ t0)) = [] := hdata
  exact pyStripList_ne_nil _ (by decide) hnil

/-- C10 (amended).  On the fallback path with a non-empty selection the
decision stage notifies with a non-null report text whose lines are all
nonempty and stripped and whose length is at most 3000 characters; when
the normalized text exceeds 3000 characters the report is the truncated
text and ends in "...", and otherwise the report is exactly the
normalized text — so it ends in "..." only when the content itself does
(the claimed "ending in three dots exactly when truncation occurred" is
refuted by the counterexample below). -/
theorem decision_fallback_report_spec (task : PipelineTask)
    (selected : List ScoredAnalysis) (hne : selected ≠ []) :
    ∃ r : String,
      make_decision_fallback task selected = ⟨true, some r⟩
      ∧ (∀ ln ∈ pySplitlines r, ln ≠ ("") ∧ pyStrip ln = ln)
      ∧ r.length ≤ 3000
      ∧ (3000 < (normalize_lines (fallback_text task selected)).length →
          pyEndsWith r ("...") = true)
      ∧ ((normalize_lines (fallback_text task selected)).length ≤ 3000 →
          r = normalize_lines (fallback_text task selected)) := by
  refine ⟨truncate_report (normalize_lines (fallback_text task selected)),
    ?_, ?_, ?_, ?_, ?_⟩
  · simp only [make_decision_fallback]
    rw [if_neg (by simp [List.isEmpty_iff, hne])]
    simp only [compact_report_text]
    rw [if_neg (fallback_text_ne_empty task selected)]
  · have hclean := normalize_lines_cleanOk (fallback_text task selected)
    simp only [truncate_report]
    by_cases hlen : 3000 < (normalize_lines (fallback_text task selected)).length
    · rw [if_pos hlen]
      apply clean_lines_of_cleanOk
      show cleanOk ((pyRstrip (pyTake (normalize_lines (fallback_text task selected)) 2997)
        ++ ("...")).data) = true
      rw [String.data_append]
      have hA : cleanOk (pyRstripList
          ((normalize_lines (fallback_text task selected)).data.take 2997)) = true :=
        cleanOk_rstrip_take _ 2997 hclean
      have hdots : ("...").data = ['.', '.', '.'] := by decide
      rw [hdots]
      exact cleanOk_append_dots hA
    · rw [if_neg hlen]
      exact clean_lines_of_cleanOk hclean
  · simp only [truncate_report]
    by_cases hlen : 3000 < (normalize_lines (fallback_text task selected)).length
    · rw [if_pos hlen]
      rw [String.length_append]
      have h2 := pyRstripList_length_le
        ((normalize_lines (fallback_text task selected)).data.take 2997)
      have h3 : ((normalize_lines (fallback_text task selected)).data.take 2997).length
          ≤ 2997 := by
        rw [List.length_take]
        exact Nat.min_le_left _ _
      have h5 : (pyRstrip (pyTake (normalize_lines (fallback_text task selected)) 2997)).length
          = (pyRstripList
            ((normalize_lines (fallback_text task selected)).data.take 2997)).length := rfl
      have h6 : ("..." : String).length = 3 := rfl
      omega
    · rw [if_neg hlen]
      omega
  · intro hlen
    simp only [truncate_report]
    rw [if_pos hlen]
    rw [pyEndsWith, String.data_append]
    have hdots : ("...").data = ['.', '.', '.'] := by decide
    rw [hdots, List.reverse_append]
    exact isHeadOf_append_self _ _
  · intro hlen
    simp only [truncate_report]
    rw [if_neg (by omega)]

def c10task : PipelineTask := { query := ("t") }

def c10sel : List ScoredAnalysis :=
  [{ result := { candidate := { arxivId := ("a1"), title := ("a"), summary := (""),
                                absUrl := some ("x...") },
                 relevance := 50, summary := ("") },
     overallScore := 50 }]

/-- C10 witness: a concrete one-item selection instantiating the claim
theorem. -/
theorem decision_fallback_report_spec_witness :
    ∃ r : String,
      make_decision_fallback c10task c10sel = ⟨true, some r⟩
      ∧ (∀ ln ∈ pySplitlines r, ln ≠ ("") ∧ pyStrip ln = ln)
      ∧ r.length ≤ 3000
      ∧ (3000 < (normalize_lines (fallback_text c10task c10sel)).length →
          pyEndsWith r ("...") = true)
      ∧ ((normalize_lines (fallback_text c10task c10sel)).length ≤ 3000 →
          r = normalize_lines (fallback_text c10task c10sel)) :=
  decision_fallback_report_spec c10task c10sel (by decide)

def c10task2 : PipelineTask := { query := ("t") }

def c10sel2 : List ScoredAnalysis :=
  [{ result := { candidate := { arxivId := ("a1"), title := ("a"), summary := (""),
                                absUrl := some ("x...") },
                 relevance := 50, summary := ("") },
     overallScore := 50 }]

/-- C10 counterexample to the claimed equivalence "the report ends in
three dots exactly when truncation occurred": with a one-item selection
whose link is "x...", the fallback report is the normalized text
unchanged (no truncation, length well under 3000), yet it ends in
"...". -/
theorem decision_fallback_report_counterexample :
    (make_decision_fallback c10task2 c10sel2).shouldNotify = true
    ∧ (make_decision_fallback c10task2 c10sel2).reportText
        = some (normalize_lines (fallback_text c10task2 c10sel2))
    ∧ (normalize_lines (fallback_text c10task2 c10sel2)).length ≤ 3000
    ∧ pyEndsWith (normalize_lines (fallback_text c10task2 c10sel2)) ("...") = true := by
  refine ⟨rfl, ?_, by decide, by decide⟩
  decide

end SearcherAgent
